import Mathlib

/-!
# go-coap transport and session layer, as vendored in fluxm2m

A shallow embedding of

* `vendor/github.com/go-ocf/go-coap/sessiondtls.go` (DTLS session: construction,
  ping, inbound signal handling),
* `vendor/github.com/go-ocf/go-coap/net/conn.go` (stream connection),
* `vendor/github.com/go-ocf/go-coap/net/connUDP.go` (datagram connection),
* `vendor/github.com/go-ocf/go-coap/net/tlslistener.go` (TLS listener),
* `api/transport.go` and `lwm2m/api/transport.go` (the CoAP handler of the
  adapter).

Sockets, response writers and contexts are the environment. Every function that
touches the environment takes the environment's state `σ` and returns the new
one; what a socket answers is given by a record of functions on `σ`, so that
quantifying over that record is quantifying over every behaviour of the
socket. Next to `σ` the embedding keeps a `trace`: the list of the environment
operations the code performed, in order. The trace is ghost state, it never
influences a result.

Loops that Go writes as `for` with no bound take a `fuel : Nat` that bounds the
number of iterations; `none` means that the fuel ran out before the loop
returned.
-/

namespace GoCoap

/-! ## Errors -/

/-- Go `error` values. `sentinel` stands for a package level variable made with
`errors.New` (compared by identity), `os` for an error produced by a socket or
by the operating system, `errorf` for a fresh value made by `fmt.Errorf`. -/
inductive Error where
  | sentinel (name : String)
  | os (text : String) (temporary : Bool)
  | errorf (text : String)
  deriving DecidableEq, Repr

/-- The method `Error()` of a Go error: its text. -/
def Error.text : Error → String
  | .sentinel name => name
  | .os text _ => text
  | .errorf text => text

/-- What the verb `%v` of `fmt.Errorf` prints for an `error` argument. -/
def fmtV : Option Error → String
  | none => "<nil>"
  | some e => e.text

/-- Modelled from the spec: `isTemporary` is declared in the `net` package of
go-coap outside the files at hand. The spec calls an error transient when it is
an interrupted call, a would-block condition or the expiry of the deadline of
one attempt; only errors coming from a socket can be transient. -/
def isTemporary : Error → Bool
  | .os _ temporary => temporary
  | _ => false

/-- Modelled from the spec: the package variable `ErrInvalidResponse` is
declared outside the files at hand; it is the explicit invalid-response error
of a ping. Only its identity matters. -/
def ErrInvalidResponse : Error := .sentinel "invalid response"

/-- Modelled from the spec: the package variable `ErrInvalidBlockWiseSzx` is
declared outside the files at hand; it is the configuration error of a session
with a block size its transport cannot carry. Only its identity matters. -/
def ErrInvalidBlockWiseSzx : Error := .sentinel "invalid block-wise transfer szx"

/-- Modelled from the spec: the package variable `ErrServerClosed` is declared
outside the files at hand; it is the "listener closed" error of accept. Only
its identity matters. -/
def ErrServerClosed : Error := .sentinel "listen socket was closed"

/-! ## Messages -/

/-- Modelled from the spec: `COAPType` is declared outside the files at hand;
a message has one of the four types Confirmable, NonConfirmable,
Acknowledgement, Reset. -/
inductive COAPType where
  | Confirmable
  | NonConfirmable
  | Acknowledgement
  | Reset
  deriving DecidableEq, Repr

/-- Modelled from the spec: `codes.Code`, the numeric code of a message (a
`uint8`), is declared outside the files at hand. -/
abbrev Code := Nat

/-- Modelled from the spec: the code of the empty message, 0.00. -/
def codes.Empty : Code := 0

/-- Modelled from the spec: the code of a normal Content response, 2.05. -/
def codes.Content : Code := 69

/-- Modelled from the spec: `MessageParams` is declared outside the files at
hand; it is what `NewMessage` is given. `Payload = none` is the nil slice. -/
structure MessageParams where
  typ : COAPType
  Code : Code
  MessageID : Nat
  Token : List Nat
  Payload : Option (List Nat)
  deriving DecidableEq, Repr

/-- Modelled from the spec: `Message` is declared outside the files at hand; a
message carries type, numeric code, message ID, token, option set (number and
value of each option) and payload. -/
structure Message where
  typ : COAPType
  Code : Code
  MessageID : Nat
  Token : List Nat
  Options : List (Nat × List Nat)
  Payload : Option (List Nat)
  deriving DecidableEq, Repr

/-- Modelled from the spec: `NewDgramMessage` is declared outside the files at
hand; it builds the datagram message that carries the given parameters and has
no option. -/
def NewDgramMessage (p : MessageParams) : Message :=
  { typ := p.typ, Code := p.Code, MessageID := p.MessageID, Token := p.Token,
    Options := [], Payload := p.Payload }

/-! ## Environment -/

/-- One operation performed on the environment. -/
inductive Event where
  | WriteMsg (m : Message)
  | SetWriteDeadline (heartBeat : Nat)
  | SetReadDeadline (heartBeat : Nat)
  | SetDeadline (heartBeat : Nat)
  | Write (p : List Nat) (n : Nat)
  | Read (len : Nat) (n : Nat)
  | WriteToSessionUDP (p : List Nat) (n : Nat)
  | ReadFromSessionUDP (len : Nat) (n : Nat)
  | SetMulticastInterface (iface : Nat)
  | SetMulticastHopLimit (hoplim : Int)
  | WriteTo (p : List Nat) (n : Nat)
  | Accept
  | Close
  deriving DecidableEq, Repr

/-- The state of the environment together with the operations performed on it
so far. -/
structure World (σ : Type) where
  sock : σ
  trace : List Event

/-- A `context.Context`: whether its `Done` channel is closed, and what `Err()`
returns, both at a given state of the environment. -/
structure Context (σ : Type) where
  Done : σ → Bool
  Err : σ → Option Error

/-! ## sessiondtls.go -/

/-- `BlockWiseSzx`, a `uint8`. -/
abbrev BlockWiseSzx := Nat

/-- Modelled from the spec: the constants of `BlockWiseSzx` are declared outside
the files at hand; exponents 0 to 6 stand for blocks of 16 to 1024 bytes. -/
def BlockWiseSzx1024 : BlockWiseSzx := 6

/-- Modelled from the spec: the special value after the seven block sizes. -/
def BlockWiseSzxBERT : BlockWiseSzx := 7

/-- The two fields of `Server` that `newSessionDTLS` reads; `none` is the nil
pointer. -/
structure Server where
  BlockWiseTransfer : Option Bool
  BlockWiseTransferSzx : Option BlockWiseSzx
  deriving DecidableEq, Repr

/-- The fields of `sessionDTLS` (through `sessionBase`) that `newSessionDTLS`
computes; the two maps start empty and the connection is the one given. -/
structure sessionDTLS where
  srv : Server
  blockWiseTransfer : Bool
  blockWiseTransferSzx : Nat
  deriving DecidableEq, Repr

/-- `newSessionDTLS`. -/
def newSessionDTLS (srv : Server) : Except Error sessionDTLS :=
  let BlockWiseTransfer := true
  let BlockWiseTransferSzx := BlockWiseSzx1024
  let BlockWiseTransfer :=
    match srv.BlockWiseTransfer with
    | some b => b
    | none => BlockWiseTransfer
  let BlockWiseTransferSzx :=
    match srv.BlockWiseTransferSzx with
    | some x => x
    | none => BlockWiseTransferSzx
  if BlockWiseTransfer && BlockWiseTransferSzx == BlockWiseSzxBERT then
    .error ErrInvalidBlockWiseSzx
  else
    .ok { srv := srv, blockWiseTransfer := BlockWiseTransfer,
          blockWiseTransferSzx := BlockWiseTransferSzx % 2 ^ 32 }

/-- `sessionDTLS.blockWiseIsValid`. -/
def sessionDTLS.blockWiseIsValid (szx : BlockWiseSzx) : Bool :=
  decide (szx ≤ BlockWiseSzx1024)

/-- The request `sessionDTLS.PingWithContext` builds with `s.NewMessage`, which
is `NewDgramMessage`; `messageID` is the value `GenerateMessageID()` gave. -/
def pingRequest (messageID : Nat) : Message :=
  NewDgramMessage
    { typ := .Confirmable, Code := codes.Empty, MessageID := messageID,
      Token := [], Payload := none }

/-- `sessionDTLS.PingWithContext`. `ExchangeWithContext` passes the request on
to `sessionBase.exchangeWithContext`, which is outside the files at hand and is
taken as the parameter `exchange`. -/
def sessionDTLS.PingWithContext {σ : Type}
    (exchange : Message → σ → Except Error Message × σ)
    (messageID : Nat) (w : σ) : Option Error × σ :=
  let req := pingRequest messageID
  match exchange req w with
  | (.error err, w1) => (some err, w1)
  | (.ok resp, w1) =>
    if resp.typ = COAPType.Reset then (none, w1)
    else (some ErrInvalidResponse, w1)

/-- A `ResponseWriter`: what `WriteMsgWithContext` returns and how it changes
the environment. The context of the request travels with the writer. -/
structure ResponseWriter (σ : Type) where
  WriteMsgWithContext : Message → σ → Option Error × σ

/-- The call `w.WriteMsgWithContext(r.Ctx, resp)`, recorded in the trace. -/
def ResponseWriter.call {σ : Type} (w : ResponseWriter σ) (resp : Message)
    (st : World σ) : Option Error × World σ :=
  let (err, s1) := w.WriteMsgWithContext resp st.sock
  (err, { sock := s1, trace := st.trace ++ [Event.WriteMsg resp] })

/-- A `Request`: the inbound message. Its client is the session itself, whose
`NewMessage` is `NewDgramMessage`. -/
structure Request where
  Msg : Message
  deriving DecidableEq, Repr

/-- `sessionDTLS.sendPong`. -/
def sessionDTLS.sendPong {σ : Type} (w : ResponseWriter σ) (r : Request)
    (st : World σ) : Option Error × World σ :=
  let resp := NewDgramMessage
    { typ := .Reset, Code := codes.Empty, MessageID := r.Msg.MessageID,
      Token := [], Payload := none }
  w.call resp st

/-- The test `r.Msg.Payload() == nil || len(r.Msg.Payload()) == 0`. -/
def payloadIsEmpty : Option (List Nat) → Bool
  | none => true
  | some p => p.length == 0

/-- `sessionDTLS.handleSignals`. -/
def sessionDTLS.handleSignals {σ : Type} (w : ResponseWriter σ) (r : Request)
    (st : World σ) : Bool × World σ :=
  if r.Msg.Code = codes.Empty then
    if r.Msg.typ = COAPType.Confirmable && r.Msg.Options.length == 0
        && payloadIsEmpty r.Msg.Payload then
      let (_, st1) := sessionDTLS.sendPong w r st
      (true, st1)
    else (false, st)
  else (false, st)

/-! ## net/conn.go -/

/-- A `net.Conn` seen from `Conn`: what each method returns and how it changes
the environment. A deadline call is given the heartbeat; the environment knows
the time. `Write` is given the slice offered and returns `n` and `err`; `Read`
(through the `bufio.Reader` over the connection) is given the length of the
buffer offered and returns `n` and `err`. -/
structure NetConn (σ : Type) where
  SetWriteDeadline : Nat → σ → Option Error × σ
  SetReadDeadline : Nat → σ → Option Error × σ
  Write : List Nat → σ → (Nat × Option Error) × σ
  Read : Nat → σ → (Nat × Option Error) × σ
  Close : σ → Option Error × σ

/-- The call `connection.SetWriteDeadline(time.Now().Add(heartBeat))`, recorded
in the trace. -/
def NetConn.setWriteDeadline {σ : Type} (n : NetConn σ) (heartBeat : Nat)
    (st : World σ) : Option Error × World σ :=
  ((n.SetWriteDeadline heartBeat st.sock).1,
   { sock := (n.SetWriteDeadline heartBeat st.sock).2,
     trace := st.trace ++ [Event.SetWriteDeadline heartBeat] })

/-- The call `connection.SetReadDeadline(time.Now().Add(heartBeat))`, recorded
in the trace. -/
def NetConn.setReadDeadline {σ : Type} (n : NetConn σ) (heartBeat : Nat)
    (st : World σ) : Option Error × World σ :=
  ((n.SetReadDeadline heartBeat st.sock).1,
   { sock := (n.SetReadDeadline heartBeat st.sock).2,
     trace := st.trace ++ [Event.SetReadDeadline heartBeat] })

/-- The call `connection.Write(p)`, recorded in the trace with the count the
connection reported. -/
def NetConn.write {σ : Type} (n : NetConn σ) (p : List Nat) (st : World σ) :
    (Nat × Option Error) × World σ :=
  ((n.Write p st.sock).1,
   { sock := (n.Write p st.sock).2,
     trace := st.trace ++ [Event.Write p (n.Write p st.sock).1.1] })

/-- The call `readBuffer.Read(buffer)`, recorded in the trace. -/
def NetConn.read {σ : Type} (n : NetConn σ) (len : Nat) (st : World σ) :
    (Nat × Option Error) × World σ :=
  ((n.Read len st.sock).1,
   { sock := (n.Read len st.sock).2,
     trace := st.trace ++ [Event.Read len (n.Read len st.sock).1.1] })

/-- The call `connection.Close()`, recorded in the trace. -/
def NetConn.close {σ : Type} (n : NetConn σ) (st : World σ) :
    Option Error × World σ :=
  ((n.Close st.sock).1,
   { sock := (n.Close st.sock).2, trace := st.trace ++ [Event.Close] })

/-- `Conn`: the heartbeat and the underlying connection. The mutex orders
concurrent writers and has no part in a sequential run. -/
structure Conn (σ : Type) where
  heartBeat : Nat
  connection : NetConn σ

/-- `Conn.Close`. -/
def Conn.Close {σ : Type} (c : Conn σ) (st : World σ) : Option Error × World σ :=
  c.connection.close st

/-- The loop of `Conn.WriteWithContext`, entered with `written` bytes counted
so far. -/
def Conn.writeLoop {σ : Type} (c : Conn σ) (ctx : Context σ) (data : List Nat) :
    Nat → Nat → World σ → Option (Option Error × World σ)
  | 0, _, _ => none
  | fuel + 1, written, st =>
    if written < data.length then
      if ctx.Done st.sock then some (ctx.Err st.sock, st)
      else
        match c.connection.setWriteDeadline c.heartBeat st with
        | (some err, st1) =>
          some (some (.errorf
            ("cannot set write deadline for tcp connection: " ++ err.text)), st1)
        | (none, st1) =>
          match c.connection.write (data.drop written) st1 with
          | ((_, some err), st2) =>
            if isTemporary err then Conn.writeLoop c ctx data fuel written st2
            else some (some (.errorf "cannot write to tcp connection"), st2)
          | ((n, none), st2) => Conn.writeLoop c ctx data fuel (written + n) st2
    else some (none, st)

/-- `Conn.WriteWithContext`. -/
def Conn.WriteWithContext {σ : Type} (c : Conn σ) (ctx : Context σ)
    (data : List Nat) (fuel : Nat) (st : World σ) :
    Option (Option Error × World σ) :=
  Conn.writeLoop c ctx data fuel 0 st

/-- `Conn.ReadWithContext`, for a buffer of length `len`; the result is `n` and
`err`. -/
def Conn.ReadWithContext {σ : Type} (c : Conn σ) (ctx : Context σ) (len : Nat) :
    Nat → World σ → Option ((Int × Option Error) × World σ)
  | 0, _ => none
  | fuel + 1, st =>
    if ctx.Done st.sock then
      match ctx.Err st.sock with
      | some cerr =>
        some ((-1, some (.errorf
          ("cannot read from tcp connection: " ++ cerr.text))), st)
      | none => some ((-1, some (.errorf "cannot read from tcp connection")), st)
    else
      match c.connection.setReadDeadline c.heartBeat st with
      | (some err, st1) =>
        some ((-1, some (.errorf
          ("cannot set read deadline for tcp connection: " ++ err.text))), st1)
      | (none, st1) =>
        match c.connection.read len st1 with
        | ((_, some err), st2) =>
          if isTemporary err then Conn.ReadWithContext c ctx len fuel st2
          else some ((-1, some (.errorf
            ("cannot read from tcp connection: " ++ err.text))), st2)
        | ((n, none), st2) => some (((n : Int), none), st2)

/-- The bytes a connection accepted over the `Write` calls of a trace, in
order: of each slice offered, the first `n` bytes. -/
def acceptedBytes : List Event → List Nat
  | [] => []
  | Event.Write p n :: rest => p.take n ++ acceptedBytes rest
  | _ :: rest => acceptedBytes rest

/-- The number of `Close` calls in a trace. -/
def closeCount : List Event → Nat
  | [] => 0
  | Event.Close :: rest => closeCount rest + 1
  | _ :: rest => closeCount rest

/-- The loop of `Conn.ReadFullWithContext` for a buffer of length `len`,
entered at `offset`. Each `ReadWithContext` is offered `buffer[offset:]`, of
length `len - offset`, and is given `fuel` for its own loop; the first argument
bounds the iterations of this loop. When `err` is nil the `n` that
`ReadWithContext` returns is a count, so `offset += n` adds `n.toNat`. The list
`reads` is ghost state: for every `ReadWithContext` that succeeded, in order,
the length it was offered and the count it returned. -/
def Conn.readFullLoop {σ : Type} (c : Conn σ) (ctx : Context σ) (len : Nat)
    (fuel : Nat) :
    Nat → Nat → List (Nat × Nat) → World σ →
      Option ((Option Error × List (Nat × Nat)) × World σ)
  | 0, _, _, _ => none
  | k + 1, offset, reads, st =>
    if offset < len then
      match Conn.ReadWithContext c ctx (len - offset) fuel st with
      | none => none
      | some ((_, some err), st1) =>
        some ((some (.errorf
          ("cannot read full from tcp connection: " ++ err.text)), reads), st1)
      | some ((n, none), st1) =>
        Conn.readFullLoop c ctx len fuel k (offset + n.toNat)
          (reads ++ [(len - offset, n.toNat)]) st1
    else some ((none, reads), st)

/-- `Conn.ReadFullWithContext`, for a buffer of length `len`. -/
def Conn.ReadFullWithContext {σ : Type} (c : Conn σ) (ctx : Context σ)
    (len : Nat) (fuel : Nat) (st : World σ) :
    Option ((Option Error × List (Nat × Nat)) × World σ) :=
  Conn.readFullLoop c ctx len fuel fuel 0 [] st

/-- Whether each read of a list was offered the suffix of a buffer of length
`len` that was still unfilled, starting at `offset`, and returned no more than
it was offered. -/
def readsSuffix (len : Nat) : Nat → List (Nat × Nat) → Bool
  | _, [] => true
  | offset, (offered, n) :: rest =>
    offered == len - offset && decide (n ≤ offered)
      && readsSuffix len (offset + n) rest

/-- Whether the text of an error `outer` carries the text of `e`: the
characters of `e` occur in a row somewhere in `outer`. -/
def textWithin (needle : List Char) : List Char → Bool
  | [] => needle.isEmpty
  | ch :: rest => needle.isPrefixOf (ch :: rest) || textWithin needle rest

/-- An error wraps `e` when its text carries the description of `e`. -/
def Error.carries (outer e : Error) : Bool :=
  textWithin e.text.data outer.text.data

/-! ## net/connUDP.go -/

/-- A `net.IP`: a byte slice; `[]` is nil. -/
abbrev IP := List Nat

/-- `net.IP.To4` of the Go library: a 4-byte address as it is, the last four
bytes of an IPv4-mapped 16-byte address, nil (`none`) otherwise. -/
def IP.To4 (ip : IP) : Option IP :=
  if ip.length = 4 then some ip
  else if ip.length = 16 ∧ ip.take 10 = List.replicate 10 0
      ∧ (ip.drop 10).take 2 = [255, 255] then some (ip.drop 12)
  else none

/-- `net.IP.To16` of the Go library: the IPv4-mapped form of a 4-byte address,
a 16-byte address as it is, nil (`none`) otherwise. -/
def IP.To16 (ip : IP) : Option IP :=
  if ip.length = 4 then some (List.replicate 10 0 ++ [255, 255] ++ ip)
  else if ip.length = 16 then some ip
  else none

/-- `net.IP.IsMulticast` of the Go library: 224.0.0.0/4 or ff00::/8. -/
def IP.IsMulticast (ip : IP) : Bool :=
  match IP.To4 ip with
  | some ip4 => (ip4.head?.getD 0) / 16 == 14
  | none => ip.length == 16 && ip.head? == some 255

/-- `isIPv6`. -/
def isIPv6 (addr : IP) : Bool :=
  match IP.To16 addr with
  | some ip => (IP.To4 ip).isNone
  | none => false

/-- A `net.UDPAddr`. -/
structure UDPAddr where
  IP : IP
  Port : Nat
  deriving DecidableEq, Repr

/-- Modelled from the spec: `ConnUDPContext` is declared outside the files at
hand; it is the peer context of a datagram, of which the code here reads the
remote address. -/
structure ConnUDPContext where
  raddr : UDPAddr
  deriving DecidableEq, Repr

/-- A `net.UDPConn` seen from `ConnUDP`, together with the two functions
`WriteToSessionUDP` and `ReadFromSessionUDP` that send and receive one datagram
on it (declared outside the files at hand, they are operations of the
socket). -/
structure UDPConn (σ : Type) where
  SetWriteDeadline : Nat → σ → Option Error × σ
  SetReadDeadline : Nat → σ → Option Error × σ
  WriteToSessionUDP : ConnUDPContext → List Nat → σ → (Nat × Option Error) × σ
  ReadFromSessionUDP : Nat → σ → (Nat × Option ConnUDPContext × Option Error) × σ
  Close : σ → Option Error × σ

/-- The interface `packetConn`; `isIPv4` tells whether the value behind it is a
`*packetConnIPv4`. A local interface is named by its index. -/
structure packetConn (σ : Type) where
  isIPv4 : Bool
  SetWriteDeadline : Nat → σ → Option Error × σ
  WriteTo : List Nat → UDPAddr → σ → (Nat × Option Error) × σ
  SetMulticastInterface : Nat → σ → Option Error × σ
  SetMulticastHopLimit : Int → σ → Option Error × σ

/-- `ConnUDP`, with what `net.Interfaces()` returns at a state of the
environment. -/
structure ConnUDP (σ : Type) where
  heartBeat : Nat
  connection : UDPConn σ
  packetConn : packetConn σ
  multicastHopLimit : Int
  Interfaces : σ → Except Error (List Nat)

/-- `ConnUDP.Close`. -/
def ConnUDP.Close {σ : Type} (c : ConnUDP σ) (st : World σ) :
    Option Error × World σ :=
  ((c.connection.Close st.sock).1,
   { sock := (c.connection.Close st.sock).2, trace := st.trace ++ [Event.Close] })

/-- The inner loop of `ConnUDP.writeMulticastWithContext` for one interface.
`some (none, _)` says that the loop ended or was left by `break`;
`some (some r, _)` that the function returned `r` from inside the loop. -/
def ConnUDP.writeMulticastIface {σ : Type} (c : ConnUDP σ) (ctx : Context σ)
    (udpCtx : ConnUDPContext) (buffer : List Nat) (iface : Nat) :
    Nat → Nat → World σ → Option (Option (Option Error) × World σ)
  | 0, _, _ => none
  | fuel + 1, written, st =>
    if written < buffer.length then
      if ctx.Done st.sock then some (some (ctx.Err st.sock), st)
      else
        let s1 := (c.packetConn.SetMulticastInterface iface st.sock).2
        let t1 := st.trace ++ [Event.SetMulticastInterface iface]
        match (c.packetConn.SetMulticastInterface iface st.sock).1 with
        | some _ => some (none, { sock := s1, trace := t1 })
        | none =>
          let s2 := (c.packetConn.SetMulticastHopLimit c.multicastHopLimit s1).2
          let t2 := t1 ++ [Event.SetMulticastHopLimit c.multicastHopLimit]
          let s3 := (c.packetConn.SetWriteDeadline c.heartBeat s2).2
          let t3 := t2 ++ [Event.SetWriteDeadline c.heartBeat]
          match (c.packetConn.SetWriteDeadline c.heartBeat s2).1 with
          | some err =>
            some (some (some (.errorf
              ("cannot write multicast with context: cannot set write deadline for connection: "
                ++ err.text))), { sock := s3, trace := t3 })
          | none =>
            let r := (c.packetConn.WriteTo buffer udpCtx.raddr s3).1
            let st4 : World σ :=
              { sock := (c.packetConn.WriteTo buffer udpCtx.raddr s3).2,
                trace := t3 ++ [Event.WriteTo buffer r.1] }
            match r.2 with
            | some err =>
              if isTemporary err then
                ConnUDP.writeMulticastIface c ctx udpCtx buffer iface fuel written st4
              else some (none, st4)
            | none =>
              ConnUDP.writeMulticastIface c ctx udpCtx buffer iface fuel
                (written + r.1) st4
    else some (none, st)

/-- The loop of `ConnUDP.writeMulticastWithContext` over the interfaces; `fuel`
bounds the inner loop of each interface. -/
def ConnUDP.writeMulticastIfaces {σ : Type} (c : ConnUDP σ) (ctx : Context σ)
    (udpCtx : ConnUDPContext) (buffer : List Nat) (fuel : Nat) :
    List Nat → World σ → Option (Option Error × World σ)
  | [], st => some (none, st)
  | iface :: rest, st =>
    match ConnUDP.writeMulticastIface c ctx udpCtx buffer iface fuel 0 st with
    | none => none
    | some (some r, st1) => some (r, st1)
    | some (none, st1) =>
      ConnUDP.writeMulticastIfaces c ctx udpCtx buffer fuel rest st1

/-- `ConnUDP.writeMulticastWithContext`; `udpCtx = none` is the nil pointer. -/
def ConnUDP.writeMulticastWithContext {σ : Type} (c : ConnUDP σ)
    (ctx : Context σ) (udpCtx : Option ConnUDPContext) (buffer : List Nat)
    (fuel : Nat) (st : World σ) : Option (Option Error × World σ) :=
  match udpCtx with
  | none =>
    some (some (.errorf "cannot write multicast with context: invalid udpCtx"), st)
  | some u =>
    if c.packetConn.isIPv4 && isIPv6 u.raddr.IP then
      some (some (.errorf
        "cannot write multicast with context: invalid destination address"), st)
    else
      match c.Interfaces st.sock with
      | .error err =>
        some (some (.errorf
          ("cannot write multicast with context: cannot get interfaces for multicast connection: "
            ++ err.text)), st)
      | .ok ifaces => ConnUDP.writeMulticastIfaces c ctx u buffer fuel ifaces st

/-- The unicast loop of `ConnUDP.WriteWithContext`, entered with `written`
bytes counted so far. -/
def ConnUDP.writeLoop {σ : Type} (c : ConnUDP σ) (ctx : Context σ)
    (udpCtx : ConnUDPContext) (buffer : List Nat) :
    Nat → Nat → World σ → Option (Option Error × World σ)
  | 0, _, _ => none
  | fuel + 1, written, st =>
    if written < buffer.length then
      if ctx.Done st.sock then some (ctx.Err st.sock, st)
      else
        let s1 := (c.connection.SetWriteDeadline c.heartBeat st.sock).2
        let t1 := st.trace ++ [Event.SetWriteDeadline c.heartBeat]
        match (c.connection.SetWriteDeadline c.heartBeat st.sock).1 with
        | some err =>
          some (some (.errorf
            ("cannot set write deadline for udp connection: " ++ err.text)),
            { sock := s1, trace := t1 })
        | none =>
          let r := (c.connection.WriteToSessionUDP udpCtx (buffer.drop written) s1).1
          let st2 : World σ :=
            { sock := (c.connection.WriteToSessionUDP udpCtx (buffer.drop written) s1).2,
              trace := t1 ++ [Event.WriteToSessionUDP (buffer.drop written) r.1] }
          match r.2 with
          | some err =>
            if isTemporary err then ConnUDP.writeLoop c ctx udpCtx buffer fuel written st2
            else some (some (.errorf
              ("cannot write to udp connection: " ++ err.text)), st2)
          | none => ConnUDP.writeLoop c ctx udpCtx buffer fuel (written + r.1) st2
    else some (none, st)

/-- `ConnUDP.WriteWithContext`; `udpCtx = none` is the nil pointer. -/
def ConnUDP.WriteWithContext {σ : Type} (c : ConnUDP σ) (ctx : Context σ)
    (udpCtx : Option ConnUDPContext) (buffer : List Nat) (fuel : Nat)
    (st : World σ) : Option (Option Error × World σ) :=
  match udpCtx with
  | none => some (some (.errorf "cannot write with context: invalid udpCtx"), st)
  | some u =>
    if IP.IsMulticast u.raddr.IP then
      ConnUDP.writeMulticastWithContext c ctx udpCtx buffer fuel st
    else ConnUDP.writeLoop c ctx u buffer fuel 0 st

/-- `ConnUDP.ReadWithContext`, for a buffer of length `len`; the result is `n`,
the peer context and `err`. -/
def ConnUDP.ReadWithContext {σ : Type} (c : ConnUDP σ) (ctx : Context σ)
    (len : Nat) :
    Nat → World σ → Option ((Int × Option ConnUDPContext × Option Error) × World σ)
  | 0, _ => none
  | fuel + 1, st =>
    if ctx.Done st.sock then
      match ctx.Err st.sock with
      | some cerr =>
        some ((-1, none, some (.errorf
          ("cannot read from udp connection: " ++ cerr.text))), st)
      | none =>
        some ((-1, none, some (.errorf "cannot read from udp connection")), st)
    else
      let s1 := (c.connection.SetReadDeadline c.heartBeat st.sock).2
      let t1 := st.trace ++ [Event.SetReadDeadline c.heartBeat]
      match (c.connection.SetReadDeadline c.heartBeat st.sock).1 with
      | some err =>
        some ((-1, none, some (.errorf
          ("cannot set read deadline for udp connection: " ++ err.text))),
          { sock := s1, trace := t1 })
      | none =>
        let r := (c.connection.ReadFromSessionUDP len s1).1
        let st2 : World σ :=
          { sock := (c.connection.ReadFromSessionUDP len s1).2,
            trace := t1 ++ [Event.ReadFromSessionUDP len r.1] }
        match r.2.2 with
        | some err =>
          if isTemporary err then ConnUDP.ReadWithContext c ctx len fuel st2
          else some ((-1, none, some (.errorf
            ("cannot read from udp connection: " ++ fmtV (ctx.Err st2.sock)))), st2)
        | none => some (((r.1 : Int), r.2.1, none), st2)

/-! ## net/tlslistener.go -/

/-- `TLSListener`: the deadline method of the TCP listener, `Accept` and
`Close` of the TLS listener built on it (an accepted connection is named by a
number), the heartbeat and the flag `closed` (a `uint32`). -/
structure TLSListener (σ : Type) where
  tcpSetDeadline : Nat → σ → Option Error × σ
  listenerAccept : σ → Except Error Nat × σ
  listenerClose : σ → Option Error × σ
  heartBeat : Nat
  closed : Nat

/-- `TLSListener.SetDeadline`, called with `time.Now().Add(heartBeat)` and
recorded in the trace. -/
def TLSListener.SetDeadline {σ : Type} (l : TLSListener σ) (heartBeat : Nat)
    (st : World σ) : Option Error × World σ :=
  ((l.tcpSetDeadline heartBeat st.sock).1,
   { sock := (l.tcpSetDeadline heartBeat st.sock).2,
     trace := st.trace ++ [Event.SetDeadline heartBeat] })

/-- `TLSListener.AcceptWithContext`; the result is the connection and `err`. -/
def TLSListener.AcceptWithContext {σ : Type} (l : TLSListener σ)
    (ctx : Context σ) :
    Nat → World σ → Option ((Option Nat × Option Error) × World σ)
  | 0, _ => none
  | fuel + 1, st =>
    if l.closed = 1 then some ((none, some ErrServerClosed), st)
    else if ctx.Done st.sock then some ((none, ctx.Err st.sock), st)
    else
      match l.SetDeadline l.heartBeat st with
      | (some err, st1) =>
        some ((none, some (.errorf
          ("cannot accept connections: " ++ err.text))), st1)
      | (none, st1) =>
        let st2 : World σ :=
          { sock := (l.listenerAccept st1.sock).2,
            trace := st1.trace ++ [Event.Accept] }
        match (l.listenerAccept st1.sock).1 with
        | .error err =>
          if isTemporary err then TLSListener.AcceptWithContext l ctx fuel st2
          else some ((none, some (.errorf
            ("cannot accept connections: " ++ err.text))), st2)
        | .ok rw => some ((some rw, none), st2)

/-- `TLSListener.Close`: the compare-and-swap of `closed` from 0 to 1, then
`Close` of the underlying listener if the swap took place. The result is
`err`, the listener with its new flag, and the environment. -/
def TLSListener.Close {σ : Type} (l : TLSListener σ) (st : World σ) :
    Option Error × TLSListener σ × World σ :=
  if l.closed = 0 then
    ((l.listenerClose st.sock).1, { l with closed := 1 },
     { sock := (l.listenerClose st.sock).2, trace := st.trace ++ [Event.Close] })
  else (none, l, st)

/-- A run of `n` calls of `TLSListener.Close` one after the other: the results
in order, the listener and the environment at the end. -/
def TLSListener.closeTimes {σ : Type} :
    Nat → TLSListener σ → World σ → List (Option Error) × TLSListener σ × World σ
  | 0, l, st => ([], l, st)
  | n + 1, l, st =>
    let r := TLSListener.Close l st
    let rest := TLSListener.closeTimes n r.2.1 r.2.2
    (r.1 :: rest.1, rest.2)

/-! ## api/transport.go and lwm2m/api/transport.go -/

/-- The codes of `go-coap/v2/message/codes` the adapter names: GET, 0.01. -/
def codes.GET : Code := 1

/-- The code POST, 0.02. -/
def codes.POST : Code := 2

/-- The code Unauthorized, 4.01. -/
def codes.Unauthorized : Code := 129

/-- The code BadOption, 4.02. -/
def codes.BadOption : Code := 130

/-- The code NotFound, 4.04. -/
def codes.NotFound : Code := 132

/-- The code InternalServerError, 5.00. -/
def codes.InternalServerError : Code := 160

/-- An error of the service as the `errors` package of mainflux sees it:
`plain` is an error of another package (made with `errors.New` of the Go
library), `wrap` an `errors.Error` with its message and the error under it,
`wrapNil` one with nothing under it. -/
inductive SvcError where
  | plain (text : String)
  | wrap (msg : String) (err : SvcError)
  | wrapNil (msg : String)
  deriving DecidableEq, Repr

/-- The method `Error()`: the text, which for a wrapped error is the message,
a colon and the text of the error under it. -/
def SvcError.text : SvcError → String
  | .plain text => text
  | .wrap msg err => msg ++ ": " ++ err.text
  | .wrapNil msg => msg

/-- `errors.Contains(e1, e2)` of mainflux for an `e1` that is not nil: whether
the message of some layer of `e1` is the text of `e2`. -/
def SvcError.contains (e2 : SvcError) : SvcError → Bool
  | .plain text => text == e2.text
  | .wrap msg err => msg == e2.text || SvcError.contains e2 err
  | .wrapNil msg => msg == e2.text

/-- `errors.Contains(e1, e2)` of mainflux, `e2` not nil; a nil `e1` contains
nothing. -/
def errors.Contains (e1 : Option SvcError) (e2 : SvcError) : Bool :=
  match e1 with
  | none => false
  | some e => SvcError.contains e2 e

/-- `ErrUnauthorized` of service.go. -/
def ErrUnauthorized : SvcError := .plain "unauthorized access"

/-- `ErrUnsubscribe` of service.go. -/
def ErrUnsubscribe : SvcError := .plain "unable to unsubscribe"

/-- A `message.Message` of go-coap v2 as the handler reads and builds it: code,
token, context (named by a number) and options; `Options = none` is nil. -/
structure api.Message where
  Code : Code
  Token : List Nat
  Context : Nat
  Options : Option (List (Nat × List Nat))
  deriving DecidableEq, Repr

/-- The `Service` the handler of api/transport.go calls: each method returns
its error and changes the state of the service. `Unsubscribe` is given the
token, of which the handler passes the text. -/
structure api.Service (σ : Type) where
  Subscribe : σ → Option SvcError × σ
  Unsubscribe : List Nat → σ → Option SvcError × σ
  Publish : σ → Option SvcError × σ

/-- The `Service` of lwm2m/service.go. -/
structure lwm2m.Service (σ : Type) where
  Publish : σ → Option SvcError × σ

/-- The state of the service and the responses written to the client so far,
in order. -/
structure api.World (σ : Type) where
  svc : σ
  sent : List api.Message

/-- `sendResp`: `w.Client().WriteMessage(resp)`; an error of the write is
logged and nothing else. -/
def api.sendResp {σ : Type} (resp : api.Message) (s : σ) (w : api.World σ) :
    api.World σ :=
  { svc := s, sent := w.sent ++ [resp] }

/-- The end of both handlers, after the `switch` on the code: the response
after `if err != nil { switch { ... } }`. -/
def api.afterSwitch (err : Option SvcError) (resp : api.Message) : api.Message :=
  match err with
  | none => resp
  | some e =>
    if errors.Contains (some e) ErrUnauthorized then
      { resp with Code := codes.Unauthorized }
    else if errors.Contains (some e) ErrUnsubscribe then
      { resp with Code := codes.InternalServerError }
    else resp

/-- The body of `handler` of api/transport.go: the response and the state of
the service when the function returns. `Observe` is `m.Options.Observe()` of
go-coap v2. -/
def api.handlerBody {σ : Type} (service : api.Service σ)
    (Observe : List (Nat × List Nat) → Except Error Nat)
    (m : api.Message) (resp : api.Message) (s : σ) : api.Message × σ :=
  match m.Options with
  | none => ({ resp with Code := codes.BadOption }, s)
  | some options =>
    if m.Code = codes.GET then
      match Observe options with
      | .error _ => ({ resp with Code := codes.BadOption }, s)
      | .ok obs =>
        if obs = 0 then
          (api.afterSwitch (service.Subscribe s).1 resp, (service.Subscribe s).2)
        else
          (api.afterSwitch none resp, (service.Unsubscribe m.Token s).2)
    else if m.Code = codes.POST then
      (api.afterSwitch (service.Publish s).1 resp, (service.Publish s).2)
    else ({ resp with Code := codes.NotFound }, s)

/-- `handler` of api/transport.go: the response starts with code Content, the
token and the context of the request and no option, and is sent when the
function returns. -/
def api.handler {σ : Type} (service : api.Service σ)
    (Observe : List (Nat × List Nat) → Except Error Nat)
    (m : api.Message) (w : api.World σ) : api.World σ :=
  let resp : api.Message :=
    { Code := codes.Content, Token := m.Token, Context := m.Context,
      Options := some [] }
  let r := api.handlerBody service Observe m resp w.svc
  api.sendResp r.1 r.2 w

/-- The body of `handler` of lwm2m/api/transport.go. -/
def lwm2m.api.handlerBody {σ : Type} (service : lwm2m.Service σ)
    (Observe : List (Nat × List Nat) → Except Error Nat)
    (m : api.Message) (resp : api.Message) (s : σ) : api.Message × σ :=
  match m.Options with
  | none => ({ resp with Code := codes.BadOption }, s)
  | some options =>
    if m.Code = codes.GET then
      match Observe options with
      | .error _ => ({ resp with Code := codes.BadOption }, s)
      | .ok _ => (api.afterSwitch none resp, s)
    else if m.Code = codes.POST then
      (api.afterSwitch (service.Publish s).1 resp, (service.Publish s).2)
    else ({ resp with Code := codes.NotFound }, s)

/-- `handler` of lwm2m/api/transport.go. -/
def lwm2m.api.handler {σ : Type} (service : lwm2m.Service σ)
    (Observe : List (Nat × List Nat) → Except Error Nat)
    (m : api.Message) (w : api.World σ) : api.World σ :=
  let resp : api.Message :=
    { Code := codes.Content, Token := m.Token, Context := m.Context,
      Options := some [] }
  let r := lwm2m.api.handlerBody service Observe m resp w.svc
  api.sendResp r.1 r.2 w

/-- The code of the response in the words of the adapter's contract, from the
request and the error the service returned: BadOption when the options are nil
or, for GET, the Observe option cannot be read; NotFound when the code is
neither GET nor POST; Unauthorized when the error contains `ErrUnauthorized`;
InternalServerError when it contains `ErrUnsubscribe`; Content otherwise. -/
def contractCode (Observe : List (Nat × List Nat) → Except Error Nat)
    (m : api.Message) (svcErr : Option SvcError) : Code :=
  match m.Options with
  | none => codes.BadOption
  | some options =>
    if m.Code = codes.GET ∧ (Observe options).toOption = none then codes.BadOption
    else if m.Code ≠ codes.GET ∧ m.Code ≠ codes.POST then codes.NotFound
    else if errors.Contains svcErr ErrUnauthorized then codes.Unauthorized
    else if errors.Contains svcErr ErrUnsubscribe then codes.InternalServerError
    else codes.Content

/-- The error the service returned to `handler` of api/transport.go for a
request: that of `Subscribe` for a GET whose Observe value is 0, that of
`Unsubscribe` for a GET with another Observe value, that of `Publish` for a
POST; nil when the service is not called. -/
def api.serviceError {σ : Type} (service : api.Service σ)
    (Observe : List (Nat × List Nat) → Except Error Nat)
    (m : api.Message) (s : σ) : Option SvcError :=
  match m.Options with
  | none => none
  | some options =>
    if m.Code = codes.GET then
      match Observe options with
      | .error _ => none
      | .ok obs =>
        if obs = 0 then (service.Subscribe s).1
        else (service.Unsubscribe m.Token s).1
    else if m.Code = codes.POST then (service.Publish s).1
    else none

/-- The error the service returned to `handler` of lwm2m/api/transport.go for
a request: that of `Publish` for a POST, nil otherwise. -/
def lwm2m.api.serviceError {σ : Type} (service : lwm2m.Service σ)
    (m : api.Message) (s : σ) : Option SvcError :=
  match m.Options with
  | none => none
  | some _ => if m.Code = codes.POST then (service.Publish s).1 else none

/-! ## Concrete environments used in the examples -/

/-- A peer that answers every request with an Acknowledgement carrying
`Content`. -/
def exchangeAckContent : Message → Unit → Except Error Message × Unit :=
  fun req w =>
    (.ok { typ := .Acknowledgement, Code := codes.Content,
           MessageID := req.MessageID, Token := req.Token, Options := [],
           Payload := some [1] }, w)

/-- A response writer whose every write fails. -/
def failingWriter : ResponseWriter Unit :=
  { WriteMsgWithContext := fun _ s => (some (Error.os "broken pipe" false), s) }

/-- An inbound CoAP ping with message ID 4660. -/
def pingIn : Request :=
  { Msg := { typ := .Confirmable, Code := codes.Empty, MessageID := 4660,
             Token := [], Options := [], Payload := some [] } }

/-- An inbound confirmable GET (code 1) with one option. -/
def getIn : Request :=
  { Msg := { typ := .Confirmable, Code := 1, MessageID := 7,
             Token := [9], Options := [(11, [97])], Payload := none } }

/-- The empty world over the one-point environment. -/
def world0 : World Unit := { sock := (), trace := [] }

/-- A context that is never done. -/
def liveCtx {σ : Type} : Context σ :=
  { Done := fun _ => false, Err := fun _ => none }

/-- A context that was cancelled before the call. -/
def cancelledCtx {σ : Type} : Context σ :=
  { Done := fun _ => true, Err := fun _ => some (.sentinel "context canceled") }

/-- A TCP connection, its state the number of `Write` calls so far. The first
`Write` accepts one byte and then runs into the write deadline, so it returns
`n = 1` with a timeout, which is a temporary error; every later `Write` accepts
all it is offered. -/
def shortWriteConn : Conn Nat :=
  { heartBeat := 1,
    connection :=
      { SetWriteDeadline := fun _ s => (none, s),
        SetReadDeadline := fun _ s => (none, s),
        Write := fun p s =>
          if s = 0 then ((1, some (Error.os "i/o timeout" true)), s + 1)
          else ((p.length, none), s + 1),
        Read := fun _ s => ((0, none), s),
        Close := fun s => (none, s) } }

/-- The peer context of the CoAP IPv4 multicast group 224.0.1.187, port 5683. -/
def allCoapNodes : ConnUDPContext :=
  { raddr := { IP := [224, 0, 1, 187], Port := 5683 } }

/-- A unicast peer, 192.0.2.1 port 5683. -/
def unicastPeer : ConnUDPContext :=
  { raddr := { IP := [192, 0, 2, 1], Port := 5683 } }

/-- An IPv4 datagram socket on a host with the two interfaces 1 and 2:
interface 1 cannot be selected for multicast, and on interface 2 every send
fails with "network is unreachable", which is not temporary. -/
def unreachableUDP : ConnUDP Unit :=
  { heartBeat := 1,
    connection :=
      { SetWriteDeadline := fun _ s => (none, s),
        SetReadDeadline := fun _ s => (none, s),
        WriteToSessionUDP := fun _ p s => ((p.length, none), s),
        ReadFromSessionUDP := fun _ s => ((0, none, none), s),
        Close := fun s => (none, s) },
    packetConn :=
      { isIPv4 := true,
        SetWriteDeadline := fun _ s => (none, s),
        WriteTo := fun _ _ s =>
          ((0, some (Error.os "network is unreachable" false)), s),
        SetMulticastInterface := fun iface s =>
          (if iface = 1 then some (Error.os "can't assign requested address" false)
           else none, s),
        SetMulticastHopLimit := fun _ s => (none, s) },
    multicastHopLimit := 2,
    Interfaces := fun _ => .ok [1, 2] }

/-- A socket, its state the number of `Close` calls so far: the first `Close`
succeeds, every later one reports that the socket is closed already. Reads
and writes succeed. -/
def closeOnceNetConn : NetConn Nat :=
  { SetWriteDeadline := fun _ s => (none, s),
    SetReadDeadline := fun _ s => (none, s),
    Write := fun p s => ((p.length, none), s),
    Read := fun len s => ((len, none), s),
    Close := fun s =>
      (if s = 0 then none
       else some (Error.os "use of closed network connection" false), s + 1) }

/-- A stream connection over `closeOnceNetConn`. -/
def closeOnceConn : Conn Nat :=
  { heartBeat := 1, connection := closeOnceNetConn }

/-- A datagram connection over a socket that behaves like `closeOnceNetConn`. -/
def closeOnceUDP : ConnUDP Nat :=
  { heartBeat := 1,
    connection :=
      { SetWriteDeadline := fun _ s => (none, s),
        SetReadDeadline := fun _ s => (none, s),
        WriteToSessionUDP := fun _ p s => ((p.length, none), s),
        ReadFromSessionUDP := fun len s => ((len, none, none), s),
        Close := fun s =>
          (if s = 0 then none
           else some (Error.os "use of closed network connection" false), s + 1) },
    packetConn :=
      { isIPv4 := true,
        SetWriteDeadline := fun _ s => (none, s),
        WriteTo := fun p _ s => ((p.length, none), s),
        SetMulticastInterface := fun _ s => (none, s),
        SetMulticastHopLimit := fun _ s => (none, s) },
    multicastHopLimit := 2,
    Interfaces := fun _ => .ok [1] }

/-- A listener over a socket whose state is the number of `Close` calls so
far; `closed` is the value of the flag. -/
def listenerWith (closed : Nat) : TLSListener Nat :=
  { tcpSetDeadline := fun _ s => (none, s),
    listenerAccept := fun s => (.ok 1, s),
    listenerClose := fun s =>
      (if s = 0 then none
       else some (Error.os "use of closed network connection" false), s + 1),
    heartBeat := 1,
    closed := closed }

/-- The world of a socket that was never closed, with an empty trace. -/
def freshWorld : World Nat := { sock := 0, trace := [] }

/-- A stream connection on which every `Write` and every `Read` fails with the
error `e` and no byte moved. -/
def failingConn (e : Error) : Conn Unit :=
  { heartBeat := 1,
    connection :=
      { SetWriteDeadline := fun _ s => (none, s),
        SetReadDeadline := fun _ s => (none, s),
        Write := fun _ s => ((0, some e), s),
        Read := fun _ s => ((0, some e), s),
        Close := fun s => (none, s) } }

/-- A datagram connection on which every send and every receive fails with the
error `e`. -/
def failingUDP (e : Error) : ConnUDP Unit :=
  { heartBeat := 1,
    connection :=
      { SetWriteDeadline := fun _ s => (none, s),
        SetReadDeadline := fun _ s => (none, s),
        WriteToSessionUDP := fun _ _ s => ((0, some e), s),
        ReadFromSessionUDP := fun _ s => ((0, none, some e), s),
        Close := fun s => (none, s) },
    packetConn :=
      { isIPv4 := true,
        SetWriteDeadline := fun _ s => (none, s),
        WriteTo := fun _ _ s => ((0, some e), s),
        SetMulticastInterface := fun _ s => (none, s),
        SetMulticastHopLimit := fun _ s => (none, s) },
    multicastHopLimit := 2,
    Interfaces := fun _ => .ok [1] }

/-- The error of a write on a pipe whose reader is gone; it is not
temporary. -/
def brokenPipe : Error := .os "broken pipe" false

/-- The error of a datagram socket whose peer refused; it is not temporary. -/
def connRefused : Error := .os "connection refused" false

/-- A stream connection whose reader hands over at most two bytes at a
time. -/
def twoByteConn : Conn Unit :=
  { heartBeat := 1,
    connection :=
      { SetWriteDeadline := fun _ s => (none, s),
        SetReadDeadline := fun _ s => (none, s),
        Write := fun p s => ((p.length, none), s),
        Read := fun len s => ((min len 2, none), s),
        Close := fun s => (none, s) } }

/-- A stand-in for `Options.Observe()` of go-coap v2: the value of the first
option numbered 6 read as a big-endian number, an error when there is none. -/
def observeOf (options : List (Nat × List Nat)) : Except Error Nat :=
  match options.find? (fun o => o.1 == 6) with
  | none => .error (.sentinel "option not found")
  | some o => .ok (o.2.foldl (fun acc b => acc * 256 + b) 0)

/-- A service, its state the number of calls so far, whose `Unsubscribe` fails
with `ErrUnsubscribe` and whose other methods succeed. -/
def unsubscribeFails : api.Service Nat :=
  { Subscribe := fun s => (none, s + 1),
    Unsubscribe := fun _ s => (some ErrUnsubscribe, s + 1),
    Publish := fun s => (none, s + 1) }

/-- A GET with token `ab cd` whose Observe option has the value 1, which asks
to end an observation. -/
def deregisterGet : api.Message :=
  { Code := codes.GET, Token := [171, 205], Context := 1,
    Options := some [(6, [1]), (11, [116])] }

/-! ## Theorems -/

/-- C1: `PingWithContext` hands a Confirmable, Empty-code request to the
exchange; an error of the exchange is returned as it is; otherwise the result
is nil exactly when the reply has type Reset, and `ErrInvalidResponse` for
every other reply type, whatever the reply's code. -/
theorem PingWithContext_reset_iff {σ : Type}
    (exchange : Message → σ → Except Error Message × σ) (messageID : Nat)
    (w w1 : σ) (out : Except Error Message)
    (h : exchange (pingRequest messageID) w = (out, w1)) :
    (pingRequest messageID).typ = COAPType.Confirmable ∧
    (pingRequest messageID).Code = codes.Empty ∧
    (∀ err, out = .error err →
      sessionDTLS.PingWithContext exchange messageID w = (some err, w1)) ∧
    (∀ resp, out = .ok resp →
      ((sessionDTLS.PingWithContext exchange messageID w).1 = none ↔
          resp.typ = COAPType.Reset) ∧
      (resp.typ ≠ COAPType.Reset →
        sessionDTLS.PingWithContext exchange messageID w
          = (some ErrInvalidResponse, w1)) ∧
      (resp.typ = COAPType.Reset →
        sessionDTLS.PingWithContext exchange messageID w = (none, w1))) := by
  refine ⟨rfl, rfl, ?_, ?_⟩
  · intro err he
    subst he
    simp [sessionDTLS.PingWithContext, h]
  · intro resp he
    subst he
    by_cases hr : resp.typ = COAPType.Reset
    · simp [sessionDTLS.PingWithContext, h, hr]
    · simp [sessionDTLS.PingWithContext, h, hr, ErrInvalidResponse]

/-- C1, at a peer that answers the ping with an Acknowledgement carrying
Content: the ping reports `ErrInvalidResponse`. -/
theorem PingWithContext_reset_iff_witness :
    sessionDTLS.PingWithContext exchangeAckContent 17 ()
      = (some ErrInvalidResponse, ()) :=
  ((PingWithContext_reset_iff exchangeAckContent 17 () () _ rfl).2.2.2 _ rfl).2.1
    (by decide)

/-- C2: an inbound message of type Confirmable with code Empty, no option and a
nil or zero-length payload makes `handleSignals` write exactly one reply, of
type Reset with code Empty and the message ID of the inbound message, and
return true, whatever the response writer returns. -/
theorem handleSignals_answers_ping {σ : Type} (w : ResponseWriter σ)
    (r : Request) (st : World σ)
    (ht : r.Msg.typ = COAPType.Confirmable) (hc : r.Msg.Code = codes.Empty)
    (ho : r.Msg.Options.length = 0)
    (hp : r.Msg.Payload = none ∨ ∃ p, r.Msg.Payload = some p ∧ p.length = 0) :
    ∃ reply : Message,
      (sessionDTLS.handleSignals w r st).2.trace
        = st.trace ++ [Event.WriteMsg reply] ∧
      (sessionDTLS.handleSignals w r st).2.sock
        = (w.WriteMsgWithContext reply st.sock).2 ∧
      reply.typ = COAPType.Reset ∧ reply.Code = codes.Empty ∧
      reply.MessageID = r.Msg.MessageID ∧
      (sessionDTLS.handleSignals w r st).1 = true := by
  have hpe : payloadIsEmpty r.Msg.Payload = true := by
    rcases hp with h | ⟨p, h, hl⟩
    · simp [h, payloadIsEmpty]
    · simp [h, payloadIsEmpty, hl]
  refine ⟨NewDgramMessage
    { typ := .Reset, Code := codes.Empty, MessageID := r.Msg.MessageID,
      Token := [], Payload := none }, ?_, ?_, rfl, rfl, rfl, ?_⟩ <;>
    simp [sessionDTLS.handleSignals, sessionDTLS.sendPong, ResponseWriter.call,
      ht, hc, ho, hpe]

/-- C2, at an inbound ping with message ID 4660 and a writer that fails: one
Reset with that message ID is written and the message is consumed. -/
theorem handleSignals_answers_ping_witness :
    ∃ reply : Message,
      (sessionDTLS.handleSignals failingWriter pingIn world0).2.trace
        = world0.trace ++ [Event.WriteMsg reply] ∧
      (sessionDTLS.handleSignals failingWriter pingIn world0).2.sock
        = (failingWriter.WriteMsgWithContext reply world0.sock).2 ∧
      reply.typ = COAPType.Reset ∧ reply.Code = codes.Empty ∧
      reply.MessageID = 4660 ∧
      (sessionDTLS.handleSignals failingWriter pingIn world0).1 = true :=
  handleSignals_answers_ping failingWriter pingIn world0 rfl rfl rfl
    (Or.inr ⟨[], rfl, rfl⟩)

/-- C3: `handleSignals` returns true exactly when the message has the signal
shape (type Confirmable, code Empty, no option, nil or zero-length payload);
for every other message it returns false and leaves the environment and the
trace as they were, so nothing is written. -/
theorem handleSignals_true_iff_shape {σ : Type} (w : ResponseWriter σ)
    (r : Request) (st : World σ) :
    ((sessionDTLS.handleSignals w r st).1 = true ↔
      (r.Msg.typ = COAPType.Confirmable ∧ r.Msg.Code = codes.Empty ∧
        r.Msg.Options.length = 0 ∧
        (r.Msg.Payload = none ∨ ∃ p, r.Msg.Payload = some p ∧ p.length = 0))) ∧
    ((sessionDTLS.handleSignals w r st).1 = false →
      sessionDTLS.handleSignals w r st = (false, st)) := by
  have hpe : payloadIsEmpty r.Msg.Payload = true ↔
      (r.Msg.Payload = none ∨ ∃ p, r.Msg.Payload = some p ∧ p.length = 0) := by
    cases hq : r.Msg.Payload with
    | none => simp [payloadIsEmpty]
    | some p => simp [payloadIsEmpty]
  rw [← hpe]
  unfold sessionDTLS.handleSignals
  by_cases hc : r.Msg.Code = codes.Empty
  · by_cases hs : (r.Msg.typ = COAPType.Confirmable && r.Msg.Options.length == 0
        && payloadIsEmpty r.Msg.Payload) = true
    · rw [if_pos hc, if_pos hs]
      simp only [Bool.and_eq_true, decide_eq_true_eq, beq_iff_eq] at hs
      simp [hs.1.1, hs.1.2, hs.2, hc]
    · rw [if_pos hc, if_neg hs]
      simp only [Bool.and_eq_true, decide_eq_true_eq, beq_iff_eq] at hs
      simp only [Bool.false_eq_true, false_iff, implies_true, and_true]
      tauto
  · rw [if_neg hc]
    simp [hc]

/-- C3, at an inbound confirmable GET with one option: it is not consumed and
nothing is written. -/
theorem handleSignals_true_iff_shape_witness :
    sessionDTLS.handleSignals failingWriter getIn world0 = (false, world0) :=
  (handleSignals_true_iff_shape failingWriter getIn world0).2 rfl

/-- C4: `newSessionDTLS` fails with `ErrInvalidBlockWiseSzx` exactly when the
effective block-wise flag (the server's, else true) is true and the effective
block size (the server's, else `BlockWiseSzx1024`) is `BlockWiseSzxBERT`;
otherwise it succeeds and the session stores the two effective values. The
block size is a `uint8`. -/
theorem newSessionDTLS_bert_rejected (srv : Server)
    (hrange : ∀ x, srv.BlockWiseTransferSzx = some x → x < 256) :
    (newSessionDTLS srv = .error ErrInvalidBlockWiseSzx ↔
      (srv.BlockWiseTransfer.getD true = true ∧
        srv.BlockWiseTransferSzx.getD BlockWiseSzx1024 = BlockWiseSzxBERT)) ∧
    (¬ (srv.BlockWiseTransfer.getD true = true ∧
        srv.BlockWiseTransferSzx.getD BlockWiseSzx1024 = BlockWiseSzxBERT) →
      newSessionDTLS srv = .ok
        { srv := srv,
          blockWiseTransfer := srv.BlockWiseTransfer.getD true,
          blockWiseTransferSzx :=
            srv.BlockWiseTransferSzx.getD BlockWiseSzx1024 }) := by
  obtain ⟨bw, szx⟩ := srv
  cases bw with
  | none =>
    cases szx with
    | none => simp [newSessionDTLS, BlockWiseSzx1024, BlockWiseSzxBERT]
    | some x =>
      have h256 : (x : Nat) < 256 := hrange x rfl
      have hx : (x : Nat) % 4294967296 = x := Nat.mod_eq_of_lt (Nat.lt_trans h256 (by decide))
      by_cases hb : (x : Nat) = 7 <;>
        simp [newSessionDTLS, hb, hx, BlockWiseSzxBERT]
  | some b =>
    cases szx with
    | none => cases b <;> simp [newSessionDTLS, BlockWiseSzx1024, BlockWiseSzxBERT]
    | some x =>
      have h256 : (x : Nat) < 256 := hrange x rfl
      have hx : (x : Nat) % 4294967296 = x := Nat.mod_eq_of_lt (Nat.lt_trans h256 (by decide))
      by_cases hb : (x : Nat) = 7 <;> cases b <;>
        simp [newSessionDTLS, hb, hx, BlockWiseSzxBERT]

/-- C4, at a server that enables block-wise transfer with the BERT size: the
construction fails; and at a server that sets nothing: the session has
block-wise transfer on with size 1024. -/
theorem newSessionDTLS_bert_rejected_witness :
    newSessionDTLS { BlockWiseTransfer := some true,
                     BlockWiseTransferSzx := some BlockWiseSzxBERT }
      = .error ErrInvalidBlockWiseSzx ∧
    newSessionDTLS { BlockWiseTransfer := none, BlockWiseTransferSzx := none }
      = .ok { srv := { BlockWiseTransfer := none, BlockWiseTransferSzx := none },
              blockWiseTransfer := true,
              blockWiseTransferSzx := BlockWiseSzx1024 } :=
  ⟨(newSessionDTLS_bert_rejected
      { BlockWiseTransfer := some true,
        BlockWiseTransferSzx := some BlockWiseSzxBERT }
      (by intro x hx; cases hx; decide)).1.2 ⟨rfl, rfl⟩,
   (newSessionDTLS_bert_rejected
      { BlockWiseTransfer := none, BlockWiseTransferSzx := none }
      (by intro x hx; cases hx)).2 (by decide)⟩

/-! ### `Conn.WriteWithContext` -/

/-- The bytes accepted over two traces one after the other. -/
theorem acceptedBytes_append (t1 t2 : List Event) :
    acceptedBytes (t1 ++ t2) = acceptedBytes t1 ++ acceptedBytes t2 := by
  induction t1 with
  | nil => rfl
  | cons e rest ih => cases e <;> simp [acceptedBytes, ih]

/-- The loop of `Conn.WriteWithContext` over a connection that reports no byte
when a `Write` fails and never more than it was offered, under a context that
has an error once it is done: if the loop returns nil from `written`, the bytes
accepted from there on are the rest of the payload. -/
theorem Conn.writeLoop_nil_accepted {σ : Type} (c : Conn σ) (ctx : Context σ)
    (data : List Nat)
    (hctx : ∀ s, ctx.Done s = true → ctx.Err s ≠ none)
    (hn : ∀ p s, (c.connection.Write p s).1.1 ≤ p.length)
    (he : ∀ p s, (c.connection.Write p s).1.2 ≠ none →
      (c.connection.Write p s).1.1 = 0) :
    ∀ (fuel written : Nat) (st st1 : World σ), written ≤ data.length →
      Conn.writeLoop c ctx data fuel written st = some (none, st1) →
      ∃ tr, st1.trace = st.trace ++ tr ∧ acceptedBytes tr = data.drop written := by
  intro fuel
  induction fuel with
  | zero => intro written st st1 _ h; simp [Conn.writeLoop] at h
  | succ fuel ih =>
    intro written st st1 hw h
    unfold Conn.writeLoop at h
    by_cases hlt : written < data.length
    · rw [if_pos hlt] at h
      by_cases hd : ctx.Done st.sock = true
      · rw [if_pos hd] at h
        have := hctx _ hd
        simp only [Option.some.injEq, Prod.mk.injEq] at h
        exact absurd h.1 this
      · rw [if_neg hd] at h
        cases hdl : (c.connection.SetWriteDeadline c.heartBeat st.sock).1 with
        | some err => simp [NetConn.setWriteDeadline, hdl] at h
        | none =>
          simp only [NetConn.setWriteDeadline, hdl, NetConn.write] at h
          have hn1 := hn (data.drop written)
            (c.connection.SetWriteDeadline c.heartBeat st.sock).2
          have he1 := he (data.drop written)
            (c.connection.SetWriteDeadline c.heartBeat st.sock).2
          generalize (c.connection.Write (data.drop written)
            (c.connection.SetWriteDeadline c.heartBeat st.sock).2) = r at h hn1 he1
          obtain ⟨⟨n, werr⟩, s2⟩ := r
          cases werr with
          | some err =>
            simp only at h he1 hn1
            have hz : n = 0 := he1 (by simp)
            by_cases ht : isTemporary err = true
            · rw [if_pos ht] at h
              obtain ⟨tr, htr, hacc⟩ := ih written _ st1 hw h
              refine ⟨[Event.SetWriteDeadline c.heartBeat,
                Event.Write (data.drop written) n] ++ tr, ?_, ?_⟩
              · simp [htr]
              · simp [acceptedBytes_append, acceptedBytes, hz, hacc]
            · rw [if_neg ht] at h
              simp at h
          | none =>
            simp only at h hn1
            have hle : written + n ≤ data.length := by
              simp only [List.length_drop] at hn1
              omega
            obtain ⟨tr, htr, hacc⟩ := ih (written + n) _ st1 hle h
            refine ⟨[Event.SetWriteDeadline c.heartBeat,
              Event.Write (data.drop written) n] ++ tr, ?_, ?_⟩
            · simp [htr]
            · rw [acceptedBytes_append]
              simp only [acceptedBytes, List.append_nil, hacc]
              rw [← List.drop_drop, List.take_append_drop]
    · rw [if_neg hlt] at h
      simp only [Option.some.injEq, Prod.mk.injEq, true_and] at h
      subst h
      refine ⟨[], by simp, ?_⟩
      simp [acceptedBytes, List.drop_eq_nil_of_le (Nat.le_of_not_lt hlt)]

/-- `Conn.WriteWithContext` over a connection that reports no byte when a
`Write` fails: a nil result means that the bytes accepted during the call are
exactly the payload. -/
theorem Conn.WriteWithContext_nil_accepted {σ : Type} (c : Conn σ)
    (ctx : Context σ) (data : List Nat) (fuel : Nat) (st st1 : World σ)
    (hctx : ∀ s, ctx.Done s = true → ctx.Err s ≠ none)
    (hn : ∀ p s, (c.connection.Write p s).1.1 ≤ p.length)
    (he : ∀ p s, (c.connection.Write p s).1.2 ≠ none →
      (c.connection.Write p s).1.1 = 0)
    (h : Conn.WriteWithContext c ctx data fuel st = some (none, st1)) :
    ∃ tr, st1.trace = st.trace ++ tr ∧ acceptedBytes tr = data := by
  simpa using Conn.writeLoop_nil_accepted c ctx data hctx hn he fuel 0 st st1
    (Nat.zero_le _) h

/-- C5: a payload of two bytes on a connection whose first `Write` accepts one
byte and then times out. `Conn.WriteWithContext` returns nil, every `Write`
reported a count within the slice it was offered, and the bytes the connection
accepted are `1, 1, 2`, not the payload `1, 2`: the count of the `Write` that
failed is dropped and the first byte goes out twice. -/
theorem Conn.WriteWithContext_timeout_resends :
    (Conn.WriteWithContext shortWriteConn liveCtx [1, 2] 3
        { sock := 0, trace := [] }).map
      (fun r => (r.1, r.2.trace, acceptedBytes r.2.trace))
    = some (none,
        [Event.SetWriteDeadline 1, Event.Write [1, 2] 1,
         Event.SetWriteDeadline 1, Event.Write [1, 2] 2],
        [1, 1, 2]) := by
  decide

/-! ### `ConnUDP.writeMulticastWithContext` -/

/-- The inner loop of the multicast write on an interface whose send path
fails at the first attempt, under a live context: the loop is left and the
function does not return from inside it. -/
theorem ConnUDP.writeMulticastIface_fails_skips {σ : Type} (c : ConnUDP σ)
    (ctx : Context σ) (u : ConnUDPContext) (buffer : List Nat) (iface : Nat)
    (hlive : ∀ s, ctx.Done s = false)
    (hfail : ∀ s,
      (c.packetConn.SetMulticastInterface iface s).1 ≠ none ∨
      ((c.packetConn.SetWriteDeadline c.heartBeat
          (c.packetConn.SetMulticastHopLimit c.multicastHopLimit
            (c.packetConn.SetMulticastInterface iface s).2).2).1 = none ∧
        ∃ err, (c.packetConn.WriteTo buffer u.raddr
          (c.packetConn.SetWriteDeadline c.heartBeat
            (c.packetConn.SetMulticastHopLimit c.multicastHopLimit
              (c.packetConn.SetMulticastInterface iface s).2).2).2).1.2 = some err
          ∧ isTemporary err = false))
    (fuel written : Nat) (st : World σ) :
    ∃ st1, ConnUDP.writeMulticastIface c ctx u buffer iface (fuel + 1) written st
      = some (none, st1) := by
  unfold ConnUDP.writeMulticastIface
  by_cases hlt : written < buffer.length
  · rw [if_pos hlt]
    simp only [hlive, Bool.false_eq_true, if_false]
    cases hmi : (c.packetConn.SetMulticastInterface iface st.sock).1 with
    | some e => exact ⟨_, rfl⟩
    | none =>
      rcases hfail st.sock with h | ⟨hdl, err, hwr, htmp⟩
      · exact absurd hmi h
      · simp only [hdl, hwr, htmp, Bool.false_eq_true, if_false]
        exact ⟨_, rfl⟩
  · rw [if_neg hlt]
    exact ⟨_, rfl⟩

/-- C6, amended: with a destination the socket accepts, a list of local
interfaces, a non-empty buffer and a live context, if the send path fails on
every interface (`SetMulticastInterface` fails, or the deadline is set and
`WriteTo` returns an error that is not temporary),
`ConnUDP.writeMulticastWithContext` returns nil: a failure on an interface
ends the work on that interface and is not reported. -/
theorem ConnUDP.writeMulticastWithContext_all_fail_nil {σ : Type}
    (c : ConnUDP σ) (ctx : Context σ) (u : ConnUDPContext) (buffer : List Nat)
    (ifaces : List Nat) (fuel : Nat) (st : World σ)
    (hbuf : buffer ≠ [])
    (hdst : (c.packetConn.isIPv4 && isIPv6 u.raddr.IP) = false)
    (hifs : c.Interfaces st.sock = .ok ifaces)
    (hlive : ∀ s, ctx.Done s = false)
    (hfail : ∀ iface ∈ ifaces, ∀ s,
      (c.packetConn.SetMulticastInterface iface s).1 ≠ none ∨
      ((c.packetConn.SetWriteDeadline c.heartBeat
          (c.packetConn.SetMulticastHopLimit c.multicastHopLimit
            (c.packetConn.SetMulticastInterface iface s).2).2).1 = none ∧
        ∃ err, (c.packetConn.WriteTo buffer u.raddr
          (c.packetConn.SetWriteDeadline c.heartBeat
            (c.packetConn.SetMulticastHopLimit c.multicastHopLimit
              (c.packetConn.SetMulticastInterface iface s).2).2).2).1.2 = some err
          ∧ isTemporary err = false)) :
    ∃ st1, ConnUDP.writeMulticastWithContext c ctx (some u) buffer (fuel + 1) st
      = some (none, st1) := by
  have _ := hbuf
  have hloop : ∀ (l : List Nat), (∀ iface ∈ l, iface ∈ ifaces) → ∀ st0 : World σ,
      ∃ st1, ConnUDP.writeMulticastIfaces c ctx u buffer (fuel + 1) l st0
        = some (none, st1) := by
    intro l
    induction l with
    | nil => intro _ st0; exact ⟨st0, rfl⟩
    | cons iface rest ih =>
      intro hsub st0
      obtain ⟨st1, h1⟩ := ConnUDP.writeMulticastIface_fails_skips c ctx u buffer
        iface hlive (hfail iface (hsub iface (List.mem_cons_self _ _))) fuel 0 st0
      obtain ⟨st2, h2⟩ := ih (fun i hi => hsub i (List.mem_cons_of_mem _ hi)) st1
      exact ⟨st2, by rw [ConnUDP.writeMulticastIfaces, h1]; exact h2⟩
  obtain ⟨st1, h1⟩ := hloop ifaces (fun _ h => h) st
  exact ⟨st1, by simp only [ConnUDP.writeMulticastWithContext, hdst, hifs]; exact h1⟩

/-- C6, amended, on a host with two interfaces of which one cannot be selected
and the other cannot reach the network: the multicast write returns nil. -/
theorem ConnUDP.writeMulticastWithContext_all_fail_nil_witness :
    ∃ st1, ConnUDP.writeMulticastWithContext unreachableUDP liveCtx
        (some allCoapNodes) [1, 2, 3] 1 { sock := (), trace := [] }
      = some (none, st1) :=
  ConnUDP.writeMulticastWithContext_all_fail_nil unreachableUDP liveCtx
    allCoapNodes [1, 2, 3] [1, 2] 0 { sock := (), trace := [] }
    (by decide) (by decide) rfl (fun _ => rfl)
    (by
      intro iface hi s
      simp only [List.mem_cons, List.mem_singleton, List.not_mem_nil, or_false] at hi
      rcases hi with h | h
      · subst h; exact Or.inl (by simp [unreachableUDP])
      · subst h; exact Or.inr ⟨rfl, _, rfl, rfl⟩)

/-- C6 as stated fails: on a host with two interfaces, a live context and a
non-empty buffer, `SetMulticastInterface` fails on interface 1 and `WriteTo`
returns an error that is not temporary on interface 2, so the send path fails
on every interface and no send succeeds, yet the result is nil. -/
theorem ConnUDP.writeMulticastWithContext_all_fail_counterexample :
    (ConnUDP.writeMulticastWithContext unreachableUDP liveCtx
        (some allCoapNodes) [1, 2, 3] 1 { sock := (), trace := [] }).map
      (fun r => (r.1, r.2.trace))
    = some (none,
        [Event.SetMulticastInterface 1, Event.SetMulticastInterface 2,
         Event.SetMulticastHopLimit 2, Event.SetWriteDeadline 1,
         Event.WriteTo [1, 2, 3] 0]) := by
  decide

/-! ### `Close` -/

/-- Once the flag is not 0, `TLSListener.Close` returns nil and changes
nothing. -/
theorem TLSListener.Close_of_closed {σ : Type} (l : TLSListener σ)
    (st : World σ) (h : l.closed ≠ 0) :
    TLSListener.Close l st = (none, l, st) := by
  simp [TLSListener.Close, h]

/-- Once the flag is not 0, any number of `Close` calls return nil and change
nothing. -/
theorem TLSListener.closeTimes_of_closed {σ : Type} (l : TLSListener σ)
    (st : World σ) (h : l.closed ≠ 0) (n : Nat) :
    TLSListener.closeTimes n l st = (List.replicate n none, l, st) := by
  induction n with
  | zero => rfl
  | succ n ih =>
    simp [TLSListener.closeTimes, TLSListener.Close_of_closed l st h, ih,
      List.replicate_succ]

/-- C7: on a listener whose flag is 0, as `NewTLSListener` makes it, a run of
`n + 1` calls of `Close` invokes `Close` of the underlying listener exactly
once, in the first call, which returns its result; every later call returns
nil and leaves the socket alone; the flag is 1 after the first call and after
every later one. -/
theorem TLSListener.Close_releases_once {σ : Type} (l : TLSListener σ)
    (st : World σ) (n : Nat) (h0 : l.closed = 0) :
    (TLSListener.closeTimes (n + 1) l st).1
      = (l.listenerClose st.sock).1 :: List.replicate n none ∧
    (TLSListener.closeTimes (n + 1) l st).2.2.trace = st.trace ++ [Event.Close] ∧
    (TLSListener.closeTimes (n + 1) l st).2.2.sock = (l.listenerClose st.sock).2 ∧
    (TLSListener.closeTimes (n + 1) l st).2.1.closed = 1 ∧
    (TLSListener.Close l st).2.1.closed = 1 := by
  have hc : TLSListener.Close l st =
      ((l.listenerClose st.sock).1, { l with closed := 1 },
       { sock := (l.listenerClose st.sock).2,
         trace := st.trace ++ [Event.Close] }) := by
    simp [TLSListener.Close, h0]
  have hrest := TLSListener.closeTimes_of_closed { l with closed := 1 }
    { sock := (l.listenerClose st.sock).2, trace := st.trace ++ [Event.Close] }
    (by simp) n
  simp [TLSListener.closeTimes, hc, hrest]

/-- C7, at three calls of `Close` on a fresh listener over a socket that
would fail a second `Close`: one `Close` reaches the socket and the three
results are nil. -/
theorem TLSListener.Close_releases_once_witness :
    (TLSListener.closeTimes 3 (listenerWith 0) freshWorld).1
      = [none, none, none] ∧
    (TLSListener.closeTimes 3 (listenerWith 0) freshWorld).2.2.trace
      = [Event.Close] ∧
    (TLSListener.closeTimes 3 (listenerWith 0) freshWorld).2.1.closed = 1 :=
  have h := TLSListener.Close_releases_once (listenerWith 0) freshWorld 2 rfl
  ⟨h.1, h.2.1, h.2.2.2.1⟩

/-- C8, amended: every call of `Conn.Close` and of `ConnUDP.Close`, a second
one included, invokes `Close` of the underlying socket once and returns what
it returns; over two calls the socket sees two `Close` calls and the second
result is the socket's answer to a repeated close. -/
theorem Conn.Close_twice_delegates {σ : Type} (c : Conn σ) (u : ConnUDP σ)
    (st : World σ) :
    (Conn.Close c (Conn.Close c st).2).1
      = (c.connection.Close (c.connection.Close st.sock).2).1 ∧
    (Conn.Close c (Conn.Close c st).2).2.trace
      = st.trace ++ [Event.Close, Event.Close] ∧
    (ConnUDP.Close u (ConnUDP.Close u st).2).1
      = (u.connection.Close (u.connection.Close st.sock).2).1 ∧
    (ConnUDP.Close u (ConnUDP.Close u st).2).2.trace
      = st.trace ++ [Event.Close, Event.Close] := by
  simp [Conn.Close, NetConn.close, ConnUDP.Close]

/-- C8 as stated fails: over a socket that reports an error for a repeated
close, the second `Close` of a `Conn` and of a `ConnUDP` returns that error,
not nil, and the socket's `Close` was invoked twice. -/
theorem Conn.Close_twice_counterexample :
    ((Conn.Close closeOnceConn (Conn.Close closeOnceConn freshWorld).2).1,
     closeCount (Conn.Close closeOnceConn
       (Conn.Close closeOnceConn freshWorld).2).2.trace)
      = (some (Error.os "use of closed network connection" false), 2) ∧
    ((ConnUDP.Close closeOnceUDP (ConnUDP.Close closeOnceUDP freshWorld).2).1,
     closeCount (ConnUDP.Close closeOnceUDP
       (ConnUDP.Close closeOnceUDP freshWorld).2).2.trace)
      = (some (Error.os "use of closed network connection" false), 2) := by
  decide

/-! ### `TLSListener.AcceptWithContext` -/

/-- C9: on a listener whose flag is set, `AcceptWithContext` returns no
connection and `ErrServerClosed` and leaves the environment and the trace as
they were (no deadline, no `Accept`), for every context, a cancelled one
included. -/
theorem TLSListener.AcceptWithContext_closed {σ : Type} (l : TLSListener σ)
    (ctx : Context σ) (fuel : Nat) (st : World σ) (h : l.closed = 1) :
    TLSListener.AcceptWithContext l ctx (fuel + 1) st
      = some ((none, some ErrServerClosed), st) := by
  simp [TLSListener.AcceptWithContext, h]

/-- C9, at the listener that `Close` leaves behind when it is called on a fresh
listener, and a context that is cancelled already: accept reports
`ErrServerClosed`, not the cancellation, and the trace still holds the one
`Close` only. -/
theorem TLSListener.AcceptWithContext_closed_witness :
    cancelledCtx.Done (TLSListener.Close (listenerWith 0) freshWorld).2.2.sock
      = true ∧
    (TLSListener.Close (listenerWith 0) freshWorld).2.2.trace = [Event.Close] ∧
    TLSListener.AcceptWithContext
        (TLSListener.Close (listenerWith 0) freshWorld).2.1 cancelledCtx 1
        (TLSListener.Close (listenerWith 0) freshWorld).2.2
      = some ((none, some ErrServerClosed),
          (TLSListener.Close (listenerWith 0) freshWorld).2.2) :=
  ⟨rfl, rfl, TLSListener.AcceptWithContext_closed
    (TLSListener.Close (listenerWith 0) freshWorld).2.1 cancelledCtx 0
    (TLSListener.Close (listenerWith 0) freshWorld).2.2 rfl⟩

/-! ### A context that is done before the call -/

/-- An error made by `fmt.Errorf` from a non-empty prefix and the text of an
error is not that error. -/
theorem errorf_prefix_ne (pre : String) (e : Error) (hpre : 0 < pre.length) :
    Error.errorf (pre ++ e.text) ≠ e := by
  intro h
  cases e with
  | sentinel name => cases h
  | os text temporary => cases h
  | errorf text =>
    have hl := congrArg (fun x => (Error.text x).length) h
    simp only [Error.text, String.length_append] at hl
    omega

/-- C10, amended: when the context is done at the call, with error `cerr`,
every blocking operation returns at once and leaves the environment and the
trace as they were. `Conn.WriteWithContext` and `ConnUDP.WriteWithContext` (for
a non-empty buffer and a peer context that is not nil, the destination being
unicast, or multicast, fit for the socket and with a local interface to send
on) and `TLSListener.AcceptWithContext` on an open listener return `cerr`
itself. `Conn.ReadWithContext` and `ConnUDP.ReadWithContext` return `n = -1`
and a new error whose text is "cannot read from tcp connection: " (for the
datagram connection "cannot read from udp connection: ") followed by the text
of `cerr`; that error is not `cerr`. -/
theorem ctx_done_returns_at_once {σ : Type} (c : Conn σ) (u : ConnUDP σ)
    (l : TLSListener σ) (ctx : Context σ) (peer : ConnUDPContext)
    (data : List Nat) (len fuel : Nat) (st : World σ) (cerr : Error)
    (hdone : ctx.Done st.sock = true) (herr : ctx.Err st.sock = some cerr)
    (hdata : data ≠ []) (hopen : l.closed ≠ 1) :
    Conn.WriteWithContext c ctx data (fuel + 1) st = some (some cerr, st) ∧
    (IP.IsMulticast peer.raddr.IP = false →
      ConnUDP.WriteWithContext u ctx (some peer) data (fuel + 1) st
        = some (some cerr, st)) ∧
    (IP.IsMulticast peer.raddr.IP = true →
      (u.packetConn.isIPv4 && isIPv6 peer.raddr.IP) = false →
      ∀ iface rest, u.Interfaces st.sock = .ok (iface :: rest) →
      ConnUDP.WriteWithContext u ctx (some peer) data (fuel + 1) st
        = some (some cerr, st)) ∧
    TLSListener.AcceptWithContext l ctx (fuel + 1) st
      = some ((none, some cerr), st) ∧
    Conn.ReadWithContext c ctx len (fuel + 1) st
      = some ((-1, some (.errorf
          ("cannot read from tcp connection: " ++ cerr.text))), st) ∧
    ConnUDP.ReadWithContext u ctx len (fuel + 1) st
      = some ((-1, none, some (.errorf
          ("cannot read from udp connection: " ++ cerr.text))), st) ∧
    Error.errorf ("cannot read from tcp connection: " ++ cerr.text) ≠ cerr ∧
    Error.errorf ("cannot read from udp connection: " ++ cerr.text) ≠ cerr := by
  have hlen : 0 < data.length := List.length_pos.mpr hdata
  refine ⟨?_, ?_, ?_, ?_, ?_, ?_, ?_, ?_⟩
  · simp [Conn.WriteWithContext, Conn.writeLoop, hlen, hdone, herr]
  · intro hm
    simp [ConnUDP.WriteWithContext, ConnUDP.writeLoop, hm, hlen, hdone, herr]
  · intro hm hdst iface rest hifs
    simp [ConnUDP.WriteWithContext, ConnUDP.writeMulticastWithContext,
      ConnUDP.writeMulticastIfaces, ConnUDP.writeMulticastIface, hm, hdst, hifs,
      hlen, hdone, herr]
  · simp [TLSListener.AcceptWithContext, hopen, hdone, herr]
  · simp [Conn.ReadWithContext, hdone, herr]
  · simp [ConnUDP.ReadWithContext, hdone, herr]
  · exact errorf_prefix_ne _ _ (by decide)
  · exact errorf_prefix_ne _ _ (by decide)

/-- C10, amended, at a cancelled context: a write of three bytes on a stream
connection returns the context's error, a read returns a new error that
carries its text. -/
theorem ctx_done_returns_at_once_witness :
    Conn.WriteWithContext closeOnceConn cancelledCtx [1, 2, 3] 1 freshWorld
      = some (some (Error.sentinel "context canceled"), freshWorld) ∧
    Conn.ReadWithContext closeOnceConn cancelledCtx 4 1 freshWorld
      = some ((-1, some (.errorf
          ("cannot read from tcp connection: "
            ++ (Error.sentinel "context canceled").text))), freshWorld) :=
  have h := ctx_done_returns_at_once closeOnceConn closeOnceUDP (listenerWith 0)
    cancelledCtx unicastPeer [1, 2, 3] 4 0 freshWorld
    (Error.sentinel "context canceled") rfl rfl (by decide) (by decide)
  ⟨h.1, h.2.2.2.2.1⟩

/-- C10 as stated fails: with a context that is cancelled already, the error
of `Conn.ReadWithContext` and of `ConnUDP.ReadWithContext` is a value made by
`fmt.Errorf`, not the value `ctx.Err()` returns. -/
theorem ReadWithContext_ctx_done_counterexample :
    ((Conn.ReadWithContext closeOnceConn cancelledCtx 4 1 freshWorld).map
        (fun r => (r.1.2, r.2.trace))
      = some (some (Error.errorf
          "cannot read from tcp connection: context canceled"), [])) ∧
    ((ConnUDP.ReadWithContext closeOnceUDP cancelledCtx 4 1 freshWorld).map
        (fun r => (r.1.2.2, r.2.trace))
      = some (some (Error.errorf
          "cannot read from udp connection: context canceled"), [])) ∧
    cancelledCtx.Err freshWorld.sock = some (Error.sentinel "context canceled") ∧
    some (Error.errorf "cannot read from tcp connection: context canceled")
      ≠ cancelledCtx.Err freshWorld.sock ∧
    some (Error.errorf "cannot read from udp connection: context canceled")
      ≠ cancelledCtx.Err freshWorld.sock := by
  decide

/-! ### An attempt that fails -/

/-- One attempt of `Conn.WriteWithContext` that fails: a temporary error makes
the loop go round again from the state after the attempt with `written` as it
was; any other error ends the call right after the attempt, with an error
whose text is fixed. -/
theorem Conn.writeLoop_attempt_fails {σ : Type} (c : Conn σ) (ctx : Context σ)
    (data : List Nat) (fuel written : Nat) (st : World σ) (err : Error)
    (hlt : written < data.length) (hlive : ctx.Done st.sock = false)
    (hdl : (c.connection.SetWriteDeadline c.heartBeat st.sock).1 = none)
    (hwr : (c.connection.Write (data.drop written)
      (c.connection.SetWriteDeadline c.heartBeat st.sock).2).1.2 = some err) :
    (isTemporary err = true →
      Conn.writeLoop c ctx data (fuel + 1) written st
        = Conn.writeLoop c ctx data fuel written
            (c.connection.write (data.drop written)
              (c.connection.setWriteDeadline c.heartBeat st).2).2) ∧
    (isTemporary err = false →
      Conn.writeLoop c ctx data (fuel + 1) written st
        = some (some (.errorf "cannot write to tcp connection"),
            (c.connection.write (data.drop written)
              (c.connection.setWriteDeadline c.heartBeat st).2).2)) := by
  have hunf : Conn.writeLoop c ctx data (fuel + 1) written st =
      (if isTemporary err then Conn.writeLoop c ctx data fuel written
          (c.connection.write (data.drop written)
            (c.connection.setWriteDeadline c.heartBeat st).2).2
       else some (some (.errorf "cannot write to tcp connection"),
          (c.connection.write (data.drop written)
            (c.connection.setWriteDeadline c.heartBeat st).2).2)) := by
    rw [Conn.writeLoop, if_pos hlt]
    simp only [hlive, Bool.false_eq_true, if_false, NetConn.setWriteDeadline, hdl,
      NetConn.write]
    generalize (c.connection.Write (data.drop written)
      (c.connection.SetWriteDeadline c.heartBeat st.sock).2) = r at hwr
    obtain ⟨⟨n, werr⟩, s2⟩ := r
    simp only at hwr
    subst hwr
    rfl
  constructor
  · intro ht; rw [hunf, if_pos ht]
  · intro ht; rw [hunf, if_neg (by simp [ht])]

/-- One attempt of `Conn.ReadWithContext` that fails: a temporary error makes
the loop go round again from the state after the attempt; any other error `err`
ends the call right after the attempt, with an error whose text ends in the
text of `err`. -/
theorem Conn.ReadWithContext_attempt_fails {σ : Type} (c : Conn σ)
    (ctx : Context σ) (len fuel : Nat) (st : World σ) (err : Error)
    (hlive : ctx.Done st.sock = false)
    (hdl : (c.connection.SetReadDeadline c.heartBeat st.sock).1 = none)
    (hrd : (c.connection.Read len
      (c.connection.SetReadDeadline c.heartBeat st.sock).2).1.2 = some err) :
    (isTemporary err = true →
      Conn.ReadWithContext c ctx len (fuel + 1) st
        = Conn.ReadWithContext c ctx len fuel
            (c.connection.read len
              (c.connection.setReadDeadline c.heartBeat st).2).2) ∧
    (isTemporary err = false →
      Conn.ReadWithContext c ctx len (fuel + 1) st
        = some ((-1, some (.errorf
            ("cannot read from tcp connection: " ++ err.text))),
            (c.connection.read len
              (c.connection.setReadDeadline c.heartBeat st).2).2)) := by
  have hunf : Conn.ReadWithContext c ctx len (fuel + 1) st =
      (if isTemporary err then Conn.ReadWithContext c ctx len fuel
          (c.connection.read len
            (c.connection.setReadDeadline c.heartBeat st).2).2
       else some ((-1, some (.errorf
          ("cannot read from tcp connection: " ++ err.text))),
          (c.connection.read len
            (c.connection.setReadDeadline c.heartBeat st).2).2)) := by
    rw [Conn.ReadWithContext]
    simp only [hlive, Bool.false_eq_true, if_false, NetConn.setReadDeadline, hdl,
      NetConn.read]
    generalize (c.connection.Read len
      (c.connection.SetReadDeadline c.heartBeat st.sock).2) = r at hrd
    obtain ⟨⟨n, rerr⟩, s2⟩ := r
    simp only at hrd
    subst hrd
    rfl
  constructor
  · intro ht; rw [hunf, if_pos ht]
  · intro ht; rw [hunf, if_neg (by simp [ht])]

/-- One attempt of the unicast `ConnUDP.WriteWithContext` that fails: a
temporary error makes the loop go round again from the state after the attempt
with `written` as it was; any other error `err` ends the call right after the
attempt, with an error whose text ends in the text of `err`. -/
theorem ConnUDP.udpWriteLoop_attempt_fails {σ : Type} (c : ConnUDP σ)
    (ctx : Context σ) (u : ConnUDPContext) (buffer : List Nat)
    (fuel written : Nat) (st : World σ) (err : Error)
    (hlt : written < buffer.length) (hlive : ctx.Done st.sock = false)
    (hdl : (c.connection.SetWriteDeadline c.heartBeat st.sock).1 = none)
    (hwr : (c.connection.WriteToSessionUDP u (buffer.drop written)
      (c.connection.SetWriteDeadline c.heartBeat st.sock).2).1.2 = some err) :
    ∃ st2 : World σ,
      (∃ n, st2.trace = st.trace ++ [Event.SetWriteDeadline c.heartBeat,
        Event.WriteToSessionUDP (buffer.drop written) n]) ∧
      (isTemporary err = true →
        ConnUDP.writeLoop c ctx u buffer (fuel + 1) written st
          = ConnUDP.writeLoop c ctx u buffer fuel written st2) ∧
      (isTemporary err = false →
        ConnUDP.writeLoop c ctx u buffer (fuel + 1) written st
          = some (some (.errorf
              ("cannot write to udp connection: " ++ err.text)), st2)) := by
  refine ⟨World.mk (c.connection.WriteToSessionUDP u (buffer.drop written)
      (c.connection.SetWriteDeadline c.heartBeat st.sock).2).2
    (st.trace ++ [Event.SetWriteDeadline c.heartBeat] ++
      [Event.WriteToSessionUDP (buffer.drop written)
        (c.connection.WriteToSessionUDP u (buffer.drop written)
          (c.connection.SetWriteDeadline c.heartBeat st.sock).2).1.1]),
    ⟨(c.connection.WriteToSessionUDP u (buffer.drop written)
      (c.connection.SetWriteDeadline c.heartBeat st.sock).2).1.1, by simp⟩, ?_, ?_⟩
  · intro ht
    rw [ConnUDP.writeLoop, if_pos hlt]
    simp only [hlive, Bool.false_eq_true, if_false, hdl, hwr, ht, if_true]
  · intro ht
    rw [ConnUDP.writeLoop, if_pos hlt]
    simp only [hlive, Bool.false_eq_true, if_false, hdl, hwr, ht]

/-- One attempt of `ConnUDP.ReadWithContext` that fails: a temporary error
makes the loop go round again from the state after the attempt; any other error
ends the call right after the attempt, with an error whose text ends in what
`%v` prints for `ctx.Err()`, not in the text of the error of the attempt. -/
theorem ConnUDP.udpRead_attempt_fails {σ : Type} (c : ConnUDP σ)
    (ctx : Context σ) (len fuel : Nat) (st : World σ) (err : Error)
    (hlive : ctx.Done st.sock = false)
    (hdl : (c.connection.SetReadDeadline c.heartBeat st.sock).1 = none)
    (hrd : (c.connection.ReadFromSessionUDP len
      (c.connection.SetReadDeadline c.heartBeat st.sock).2).1.2.2 = some err) :
    ∃ st2 : World σ,
      (∃ n, st2.trace = st.trace ++ [Event.SetReadDeadline c.heartBeat,
        Event.ReadFromSessionUDP len n]) ∧
      (isTemporary err = true →
        ConnUDP.ReadWithContext c ctx len (fuel + 1) st
          = ConnUDP.ReadWithContext c ctx len fuel st2) ∧
      (isTemporary err = false →
        ConnUDP.ReadWithContext c ctx len (fuel + 1) st
          = some ((-1, none, some (.errorf
              ("cannot read from udp connection: " ++ fmtV (ctx.Err st2.sock)))),
              st2)) := by
  refine ⟨World.mk (c.connection.ReadFromSessionUDP len
      (c.connection.SetReadDeadline c.heartBeat st.sock).2).2
    (st.trace ++ [Event.SetReadDeadline c.heartBeat] ++
      [Event.ReadFromSessionUDP len
        (c.connection.ReadFromSessionUDP len
          (c.connection.SetReadDeadline c.heartBeat st.sock).2).1.1]),
    ⟨(c.connection.ReadFromSessionUDP len
      (c.connection.SetReadDeadline c.heartBeat st.sock).2).1.1, by simp⟩, ?_, ?_⟩
  · intro ht
    rw [ConnUDP.ReadWithContext]
    simp only [hlive, Bool.false_eq_true, if_false, hdl, hrd, ht, if_true]
  · intro ht
    rw [ConnUDP.ReadWithContext]
    simp only [hlive, Bool.false_eq_true, if_false, hdl, hrd, ht]

/-- C11: attempts that fail with an error that is not temporary, under a live
context. `Conn.ReadWithContext` and the unicast `ConnUDP.WriteWithContext`
return after the one attempt an error whose text carries the description of
the error of the attempt. `Conn.WriteWithContext` returns "cannot write to tcp
connection", which carries nothing of "broken pipe", and
`ConnUDP.ReadWithContext` returns "cannot read from udp connection: <nil>",
which carries nothing of "connection refused". -/
theorem attempt_error_not_wrapped :
    ((Conn.WriteWithContext (failingConn brokenPipe) liveCtx [1, 2] 1 world0).map
        (fun r => (r.1, r.2.trace))
      = some (some (Error.errorf "cannot write to tcp connection"),
          [Event.SetWriteDeadline 1, Event.Write [1, 2] 0])) ∧
    Error.carries (Error.errorf "cannot write to tcp connection") brokenPipe
      = false ∧
    ((ConnUDP.ReadWithContext (failingUDP connRefused) liveCtx 4 1 world0).map
        (fun r => (r.1.2.2, r.2.trace))
      = some (some (Error.errorf "cannot read from udp connection: <nil>"),
          [Event.SetReadDeadline 1, Event.ReadFromSessionUDP 4 0])) ∧
    Error.carries (Error.errorf "cannot read from udp connection: <nil>")
      connRefused = false ∧
    ((Conn.ReadWithContext (failingConn brokenPipe) liveCtx 4 1 world0).map
        (fun r => (r.1.2, r.2.trace))
      = some (some (Error.errorf "cannot read from tcp connection: broken pipe"),
          [Event.SetReadDeadline 1, Event.Read 4 0])) ∧
    Error.carries (Error.errorf "cannot read from tcp connection: broken pipe")
      brokenPipe = true ∧
    ((ConnUDP.WriteWithContext (failingUDP connRefused) liveCtx
          (some unicastPeer) [1, 2] 1 world0).map (fun r => (r.1, r.2.trace))
      = some (some (Error.errorf
            "cannot write to udp connection: connection refused"),
          [Event.SetWriteDeadline 1, Event.WriteToSessionUDP [1, 2] 0])) ∧
    Error.carries
      (Error.errorf "cannot write to udp connection: connection refused")
      connRefused = true := by
  decide

/-! ### `Conn.ReadFullWithContext` -/

/-- A `ReadWithContext` that succeeds returns the count of its last `Read`,
which is within the length offered when the reader keeps to that. -/
theorem Conn.ReadWithContext_count_le {σ : Type} (c : Conn σ) (ctx : Context σ)
    (len : Nat)
    (hn : ∀ l s, (c.connection.Read l s).1.2 = none →
      (c.connection.Read l s).1.1 ≤ l) :
    ∀ (fuel : Nat) (st st1 : World σ) (n : Int),
      Conn.ReadWithContext c ctx len fuel st = some ((n, none), st1) →
      ∃ k : Nat, n = (k : Int) ∧ k ≤ len := by
  intro fuel
  induction fuel with
  | zero => intro st st1 n h; simp [Conn.ReadWithContext] at h
  | succ fuel ih =>
    intro st st1 n h
    unfold Conn.ReadWithContext at h
    by_cases hd : ctx.Done st.sock = true
    · rw [if_pos hd] at h
      cases hce : ctx.Err st.sock <;> simp [hce] at h
    · rw [if_neg hd] at h
      cases hdl : (c.connection.SetReadDeadline c.heartBeat st.sock).1 with
      | some err => simp [NetConn.setReadDeadline, hdl] at h
      | none =>
        simp only [NetConn.setReadDeadline, hdl, NetConn.read] at h
        have hn1 := hn len (c.connection.SetReadDeadline c.heartBeat st.sock).2
        generalize (c.connection.Read len
          (c.connection.SetReadDeadline c.heartBeat st.sock).2) = r at h hn1
        obtain ⟨⟨m, rerr⟩, s2⟩ := r
        cases rerr with
        | some err =>
          simp only at h
          by_cases ht : isTemporary err = true
          · rw [if_pos ht] at h
            exact ih _ st1 n h
          · rw [if_neg ht] at h
            simp at h
        | none =>
          simp only [Option.some.injEq, Prod.mk.injEq, and_true] at h
          exact ⟨m, h.1.symm, hn1 rfl⟩

/-- The loop of `Conn.ReadFullWithContext` over a reader that keeps to the
length it is offered: if the loop returns nil from `offset`, the reads it made
were each offered the unfilled suffix and their counts add up to the rest of
the buffer. -/
theorem Conn.readFullLoop_nil_fills {σ : Type} (c : Conn σ) (ctx : Context σ)
    (len fuel : Nat)
    (hn : ∀ l s, (c.connection.Read l s).1.2 = none →
      (c.connection.Read l s).1.1 ≤ l) :
    ∀ (k offset : Nat) (reads reads1 : List (Nat × Nat)) (st st1 : World σ),
      offset ≤ len →
      Conn.readFullLoop c ctx len fuel k offset reads st
        = some ((none, reads1), st1) →
      ∃ new, reads1 = reads ++ new ∧ readsSuffix len offset new = true ∧
        offset + (new.map Prod.snd).sum = len := by
  intro k
  induction k with
  | zero => intro offset reads reads1 st st1 _ h; simp [Conn.readFullLoop] at h
  | succ k ih =>
    intro offset reads reads1 st st1 hle h
    unfold Conn.readFullLoop at h
    by_cases hlt : offset < len
    · rw [if_pos hlt] at h
      cases hr : Conn.ReadWithContext c ctx (len - offset) fuel st with
      | none => simp [hr] at h
      | some r =>
        obtain ⟨⟨n, rerr⟩, st2⟩ := r
        cases rerr with
        | some err => simp [hr] at h
        | none =>
          simp only [hr] at h
          obtain ⟨m, hm, hmle⟩ :=
            Conn.ReadWithContext_count_le c ctx (len - offset) hn fuel st st2 n hr
          subst hm
          simp only [Int.toNat_ofNat] at h
          obtain ⟨new, hnew, hsuf, hsum⟩ :=
            ih (offset + m) _ reads1 st2 st1 (by omega) h
          refine ⟨(len - offset, m) :: new, ?_, ?_, ?_⟩
          · simp [hnew]
          · simp [readsSuffix, hsuf, hmle]
          · simp only [List.map_cons, List.sum_cons]
            omega
    · rw [if_neg hlt] at h
      simp only [Option.some.injEq, Prod.mk.injEq, true_and] at h
      refine ⟨[], by simp [h.1], rfl, ?_⟩
      simp only [List.map_nil, List.sum_nil]
      omega

/-- C12: over a reader that keeps to the length it is offered,
`Conn.ReadFullWithContext` returns nil only when the reads that succeeded were
each offered the suffix still unfilled and their counts add up to the length
of the buffer; when a `ReadWithContext` fails, at any offset, the call returns
at once an error made from that failure; for an empty buffer it returns nil
and reads nothing. -/
theorem Conn.ReadFullWithContext_fills_exactly {σ : Type} (c : Conn σ)
    (ctx : Context σ) (len : Nat)
    (hn : ∀ l s, (c.connection.Read l s).1.2 = none →
      (c.connection.Read l s).1.1 ≤ l) :
    (∀ (fuel : Nat) (st st1 : World σ) (reads : List (Nat × Nat)),
      Conn.ReadFullWithContext c ctx len fuel st = some ((none, reads), st1) →
      readsSuffix len 0 reads = true ∧ (reads.map Prod.snd).sum = len) ∧
    (∀ (fuel k offset : Nat) (reads : List (Nat × Nat)) (st st1 : World σ)
        (n : Int) (err : Error), offset < len →
      Conn.ReadWithContext c ctx (len - offset) fuel st
        = some ((n, some err), st1) →
      Conn.readFullLoop c ctx len fuel (k + 1) offset reads st
        = some ((some (.errorf
            ("cannot read full from tcp connection: " ++ err.text)), reads),
            st1)) ∧
    (∀ (fuel : Nat) (st : World σ),
      Conn.ReadFullWithContext c ctx 0 (fuel + 1) st = some ((none, []), st)) := by
  refine ⟨?_, ?_, ?_⟩
  · intro fuel st st1 reads h
    obtain ⟨new, hnew, hsuf, hsum⟩ :=
      Conn.readFullLoop_nil_fills c ctx len fuel hn fuel 0 [] reads st st1
        (Nat.zero_le _) h
    simp only [List.nil_append] at hnew
    subst hnew
    exact ⟨hsuf, by omega⟩
  · intro fuel k offset reads st st1 n err hlt hr
    rw [Conn.readFullLoop, if_pos hlt, hr]
  · intro fuel st
    simp [Conn.ReadFullWithContext, Conn.readFullLoop]

/-- C12, on a reader that hands over at most two bytes at a time and a buffer
of three bytes: the call returns nil after a read of two bytes offered three
and a read of one byte offered one. -/
theorem Conn.ReadFullWithContext_fills_exactly_witness :
    Conn.ReadFullWithContext twoByteConn liveCtx 3 3 world0
      = some ((none, [(3, 2), (1, 1)]),
          World.mk ()
            [Event.SetReadDeadline 1, Event.Read 3 2,
             Event.SetReadDeadline 1, Event.Read 1 1]) ∧
    readsSuffix 3 0 [(3, 2), (1, 1)] = true ∧
    (([(3, 2), (1, 1)] : List (Nat × Nat)).map Prod.snd).sum = 3 :=
  have hrun : Conn.ReadFullWithContext twoByteConn liveCtx 3 3 world0
      = some ((none, [(3, 2), (1, 1)]),
          World.mk ()
            [Event.SetReadDeadline 1, Event.Read 3 2,
             Event.SetReadDeadline 1, Event.Read 1 1]) := rfl
  have hfill := (Conn.ReadFullWithContext_fills_exactly twoByteConn liveCtx 3
    (by intro l s _; exact Nat.min_le_left l 2)).1 3 world0 _ _ hrun
  ⟨hrun, hfill.1, hfill.2⟩

/-! ### The handler of the adapter -/

/-- The response after the `switch` on the code has the code the contract
gives for a request with options whose code is GET or POST and whose Observe
option, for GET, can be read. -/
theorem api.afterSwitch_code (err : Option SvcError) (resp : api.Message)
    (hc : resp.Code = codes.Content) :
    (api.afterSwitch err resp).Code =
      (if errors.Contains err ErrUnauthorized then codes.Unauthorized
       else if errors.Contains err ErrUnsubscribe then codes.InternalServerError
       else codes.Content) ∧
    (api.afterSwitch err resp).Token = resp.Token ∧
    (api.afterSwitch err resp).Context = resp.Context := by
  cases err with
  | none => simp [api.afterSwitch, errors.Contains, hc]
  | some e =>
    by_cases h1 : errors.Contains (some e) ErrUnauthorized = true
    · simp [api.afterSwitch, h1]
    · by_cases h2 : errors.Contains (some e) ErrUnsubscribe = true
      · simp [api.afterSwitch, h1, h2]
      · simp [api.afterSwitch, h1, h2, hc]

/-- The handler of lwm2m/api/transport.go sends one response, with the token
and the context of the request and the code the contract gives for the request
and the error of the service. -/
theorem lwm2m.api.handler_meets_contract {σ : Type} (service : lwm2m.Service σ)
    (Observe : List (Nat × List Nat) → Except Error Nat)
    (m : api.Message) (w : api.World σ) :
    ∃ resp : api.Message,
      (lwm2m.api.handler service Observe m w).sent = w.sent ++ [resp] ∧
      resp.Token = m.Token ∧ resp.Context = m.Context ∧
      resp.Code = contractCode Observe m
        (lwm2m.api.serviceError service m w.svc) := by
  obtain ⟨code, token, context, opts⟩ := m
  have hpub := api.afterSwitch_code (service.Publish w.svc).1
    { Code := codes.Content, Token := token, Context := context,
      Options := some [] } rfl
  refine ⟨_, rfl, ?_, ?_, ?_⟩
  all_goals
    cases opts with
    | none => simp [lwm2m.api.handlerBody, contractCode, lwm2m.api.serviceError]
    | some options =>
      by_cases hg : code = codes.GET
      · subst hg
        cases hobs : Observe options <;>
          simp [lwm2m.api.handlerBody, contractCode, lwm2m.api.serviceError,
            hobs, Except.toOption, api.afterSwitch, errors.Contains,
            (show ¬ codes.GET = codes.POST by decide)]
      · by_cases hp : code = codes.POST
        · subst hp
          simp [lwm2m.api.handlerBody, contractCode, lwm2m.api.serviceError,
            hpub.1, hpub.2.1, hpub.2.2,
            (show ¬ codes.POST = codes.GET by decide)]
        · simp [lwm2m.api.handlerBody, contractCode, lwm2m.api.serviceError,
            hg, hp]

/-- The handler of api/transport.go sends one response, with the token and
the context of the request. Its code is the one the contract gives for the
request and the error of the service, unless the request is a GET whose
Observe value is not 0: then `Unsubscribe` is called, its error is dropped and
the code is Content. -/
theorem api.handler_meets_contract_but_unsubscribe {σ : Type}
    (service : api.Service σ)
    (Observe : List (Nat × List Nat) → Except Error Nat)
    (m : api.Message) (w : api.World σ) :
    ∃ resp : api.Message,
      (api.handler service Observe m w).sent = w.sent ++ [resp] ∧
      resp.Token = m.Token ∧ resp.Context = m.Context ∧
      ((∀ options obs, m.Options = some options → m.Code = codes.GET →
          Observe options = .ok obs → obs = 0) →
        resp.Code = contractCode Observe m
          (api.serviceError service Observe m w.svc)) ∧
      (∀ options obs, m.Options = some options → m.Code = codes.GET →
          Observe options = .ok obs → obs ≠ 0 →
        resp.Code = codes.Content ∧
        (api.handler service Observe m w).svc
          = (service.Unsubscribe m.Token w.svc).2) := by
  obtain ⟨code, token, context, opts⟩ := m
  have hpub := api.afterSwitch_code (service.Publish w.svc).1
    { Code := codes.Content, Token := token, Context := context,
      Options := some [] } rfl
  have hsubs := api.afterSwitch_code (service.Subscribe w.svc).1
    { Code := codes.Content, Token := token, Context := context,
      Options := some [] } rfl
  refine ⟨_, rfl, ?_, ?_, ?_, ?_⟩
  · cases opts with
    | none => simp [api.handlerBody]
    | some options =>
      by_cases hg : code = codes.GET
      · subst hg
        cases hobs : Observe options with
        | error e => simp [api.handlerBody, hobs]
        | ok obs =>
          by_cases h0 : obs = 0
          · simp [api.handlerBody, hobs, h0, hsubs.2.1]
          · simp [api.handlerBody, hobs, h0, api.afterSwitch]
      · by_cases hp : code = codes.POST
        · subst hp
          simp [api.handlerBody, hpub.2.1,
            (show ¬ codes.POST = codes.GET by decide)]
        · simp [api.handlerBody, hg, hp]
  · cases opts with
    | none => simp [api.handlerBody]
    | some options =>
      by_cases hg : code = codes.GET
      · subst hg
        cases hobs : Observe options with
        | error e => simp [api.handlerBody, hobs]
        | ok obs =>
          by_cases h0 : obs = 0
          · simp [api.handlerBody, hobs, h0, hsubs.2.2]
          · simp [api.handlerBody, hobs, h0, api.afterSwitch]
      · by_cases hp : code = codes.POST
        · subst hp
          simp [api.handlerBody, hpub.2.2,
            (show ¬ codes.POST = codes.GET by decide)]
        · simp [api.handlerBody, hg, hp]
  · intro hsub
    cases opts with
    | none => simp [api.handlerBody, contractCode, api.serviceError]
    | some options =>
      by_cases hg : code = codes.GET
      · subst hg
        cases hobs : Observe options with
        | error e =>
          simp [api.handlerBody, contractCode, api.serviceError, hobs,
            Except.toOption]
        | ok obs =>
          have h0 : obs = 0 := hsub options obs rfl rfl hobs
          simp [api.handlerBody, contractCode, api.serviceError, hobs, h0,
            Except.toOption, hsubs.1,
            (show ¬ codes.GET = codes.POST by decide)]
      · by_cases hp : code = codes.POST
        · subst hp
          simp [api.handlerBody, contractCode, api.serviceError, hpub.1,
            (show ¬ codes.POST = codes.GET by decide)]
        · simp [api.handlerBody, contractCode, api.serviceError, hg, hp]
  · intro options obs hopt hg hobs h0
    simp only [Option.some.injEq] at hopt hg
    subst hopt
    subst hg
    simp [api.handler, api.sendResp, api.handlerBody, hobs, h0,
      api.afterSwitch]

/-- C14: a GET whose Observe option has the value 1, handled by `handler` of
api/transport.go over a service whose `Unsubscribe` fails with
`ErrUnsubscribe`. One response is sent, with the token and the context of the
request; the error the service returned contains `ErrUnsubscribe`, for which
the contract gives InternalServerError, and the code of the response is
Content. -/
theorem api.handler_unsubscribe_error_dropped :
    (api.handler unsubscribeFails observeOf deregisterGet
        { svc := 0, sent := [] }).sent
      = [{ Code := codes.Content, Token := [171, 205], Context := 1,
           Options := some [] }] ∧
    (api.handler unsubscribeFails observeOf deregisterGet
        { svc := 0, sent := [] }).svc = 1 ∧
    api.serviceError unsubscribeFails observeOf deregisterGet 0
      = some ErrUnsubscribe ∧
    errors.Contains (some ErrUnsubscribe) ErrUnsubscribe = true ∧
    contractCode observeOf deregisterGet
        (api.serviceError unsubscribeFails observeOf deregisterGet 0)
      = codes.InternalServerError := by
  decide

end GoCoap
